import Mathlib

/-!
Verification of the caddyserver/gateway controller against its
natural-language specification.

Go strings are embedded as `List Char`; Go slices as `List`; Go maps as
association lists; pointers that may be nil as `Option`; Kubernetes
client calls and other external collaborators as explicit oracle
arguments. Every definition mirrors the corresponding Go source
function of the repository (file and function named in its doc
comment).
-/

namespace CaddyGateway

/-- Embedding of Go `string` values as lists of characters. -/
abbrev GoString := List Char

/-- Injects a Lean string literal into the `GoString` embedding. -/
def gs (s : String) : GoString := s.data

/-- Go `strings.HasPrefix`. -/
def goHasPrefix (s pre : GoString) : Bool := pre.isPrefixOf s

/-- Go `strings.HasSuffix`. -/
def goHasSuffix (s suf : GoString) : Bool := suf.isSuffixOf s

/-- Go `strings.TrimPrefix`: drops `pre` from the front of `s` when present. -/
def goTrimPrefix (s pre : GoString) : GoString :=
  if goHasPrefix s pre then s.drop pre.length else s

/-- Go `strings.TrimSuffix`: drops `suf` from the end of `s` when present. -/
def goTrimSuffix (s suf : GoString) : GoString :=
  if goHasSuffix s suf then s.take (s.length - suf.length) else s

/-- Go `strconv.Itoa` on a natural number. -/
def goItoa (n : Nat) : GoString := (Nat.repr n).data

/-- Go `net.JoinHostPort`: brackets the host when it contains a colon. -/
def goJoinHostPort (host port : GoString) : GoString :=
  if host.contains ':' then gs "[" ++ host ++ gs "]:" ++ port
  else host ++ gs ":" ++ port

/-- Insertion step of the embedding of Go `slices.Sort` on strings. -/
def lexLe : GoString → GoString → Bool
  | [], _ => true
  | _ :: _, [] => false
  | a :: as, b :: bs => if a < b then true else if b < a then false else lexLe as bs

/-- Inserts a string into an already sorted list (embedding of sorting). -/
def sortInsert (x : GoString) : List GoString → List GoString
  | [] => [x]
  | y :: ys => if lexLe x y then x :: y :: ys else y :: sortInsert x ys

/-- Embedding of Go `slices.Sort` on `[]string` (insertion sort; the
algorithm choice is unobservable up to the resulting order). -/
def sortStrings : List GoString → List GoString
  | [] => []
  | x :: xs => sortInsert x (sortStrings xs)

theorem mem_sortInsert (x y : GoString) (l : List GoString) :
    y ∈ sortInsert x l ↔ y = x ∨ y ∈ l := by
  induction l with
  | nil => simp [sortInsert]
  | cons z zs ih =>
    by_cases h : lexLe x z
    · simp [sortInsert, h]
    · simp only [sortInsert, h, if_neg, Bool.false_eq_true, if_false, List.mem_cons, ih]
      tauto

theorem mem_sortStrings (y : GoString) (l : List GoString) :
    y ∈ sortStrings l ↔ y ∈ l := by
  induction l with
  | nil => simp [sortStrings]
  | cons z zs ih => simp [sortStrings, mem_sortInsert, ih]

/-! ## Reference grants — `internal/gateway.go` -/

/-- Embedding of `gatewayv1.Namespace` pointers: `none` is a nil pointer. -/
abbrev OptNS := Option GoString

/-- Source `internal/gateway.go` `NamespaceDerefOr`: dereferences the
namespace when present and non-empty, else the default. -/
def namespaceDerefOr (ns : OptNS) (defaultNamespace : GoString) : GoString :=
  match ns with
  | some v => if v ≠ [] then v else defaultNamespace
  | none => defaultNamespace

/-- A Kubernetes group/version/kind triple (version is irrelevant to the
grant decision and omitted by the source comparisons). -/
structure GVK where
  group : GoString
  kind : GoString
deriving DecidableEq, Repr

/-- A `from` entry of a ReferenceGrant. -/
structure GrantFrom where
  group : GoString
  kind : GoString
  namespc : GoString
deriving DecidableEq, Repr

/-- A `to` entry of a ReferenceGrant; `name` is optional. -/
structure GrantTo where
  group : GoString
  kind : GoString
  name : Option GoString
deriving DecidableEq, Repr

/-- A ReferenceGrant object (namespace-scoped). -/
structure ReferenceGrant where
  namespc : GoString
  fromRefs : List GrantFrom
  toRefs : List GrantTo
deriving DecidableEq, Repr

/-- Source `internal/gateway.go` `isReferenceAllowed`: same-namespace
references are always allowed; otherwise some grant in the target
namespace must carry a matching `from` entry and a matching `to` entry. -/
def isReferenceAllowed (originatingNamespace name : GoString) (namespc : OptNS)
    (fromGVK toGVK : GVK) (grants : List ReferenceGrant) : Bool :=
  let ns := namespaceDerefOr namespc originatingNamespace
  if originatingNamespace = ns then true
  else grants.any fun g =>
    (g.namespc == ns) &&
    (g.fromRefs.any fun fr =>
      (fr.group == fromGVK.group && fr.kind == fromGVK.kind &&
        fr.namespc == originatingNamespace) &&
      (g.toRefs.any fun t =>
        t.group == toGVK.group && t.kind == toGVK.kind &&
          (t.name == none || t.name == some name)))

/-! ## Hostname intersection — `internal/gateway.go` -/

/-- Source `internal/gateway.go` `hostnameMatchesWildcardHostname`:
true when `hostname` has the non-wildcard portion of `wildcardHostname`
as a suffix plus a non-empty remainder. -/
def hostnameMatchesWildcardHostname (hostname wildcardHostname : GoString) : Bool :=
  let trimmed := goTrimPrefix wildcardHostname (gs "*")
  if ¬goHasSuffix hostname trimmed then false
  else
    let wildcardMatch := goTrimSuffix hostname trimmed
    wildcardMatch.length > 0

/-- Source `internal/gateway.go` `ComputeHosts`: intersection of the
route hostnames with the listener hostname, sorted. -/
def computeHosts (routeHostnames : List GoString) (listenerHostname : Option GoString) :
    List GoString :=
  let listenerHostnameVal := match listenerHostname with
    | some h => h
    | none => []
  if routeHostnames.length = 0 then
    if listenerHostnameVal.length > 0 then [listenerHostnameVal] else [gs "*"]
  else
    let hostnames := routeHostnames.foldl (fun acc routeHostname =>
      if listenerHostnameVal.length = 0 then acc ++ [routeHostname]
      else if listenerHostnameVal = routeHostname then acc ++ [routeHostname]
      else if goHasPrefix listenerHostnameVal (gs "*") then
        if hostnameMatchesWildcardHostname routeHostname listenerHostnameVal then
          acc ++ [routeHostname]
        else acc
      else if goHasPrefix routeHostname (gs "*") then
        if hostnameMatchesWildcardHostname listenerHostnameVal routeHostname then
          acc ++ [listenerHostnameVal]
        else acc
      else acc) []
    sortStrings hostnames

/-! ## Gateway API data model -/

/-- A Kubernetes `metav1.Condition` (`lastTransitionTime` modeled as an
integer timestamp). -/
structure Condition where
  condType : GoString
  status : GoString
  reason : GoString
  message : GoString
  observedGeneration : Int
  lastTransitionTime : Int
deriving DecidableEq, Repr

/-- A `gatewayv1.ParentReference` (nil pointers are `none`). -/
structure ParentReference where
  group : Option GoString
  kind : Option GoString
  namespc : Option GoString
  name : GoString
  sectionName : Option GoString
  port : Option Nat
deriving DecidableEq, Repr

/-- A `gatewayv1.RouteParentStatus` entry recorded on a route. -/
structure RouteParentStatus where
  parentRef : ParentReference
  controllerName : GoString
  conditions : List Condition
deriving DecidableEq, Repr

/-- A label selector, modeled as its `matchLabels` pairs; it is only
interpreted by the Kubernetes list oracle. -/
abbrev LabelSelector := List (GoString × GoString)

/-- A `gatewayv1.RouteNamespaces`: `from` is defaulted by the API server
and so modeled as a plain string; `selector` may be nil. -/
structure RouteNamespaces where
  fromKindOf : GoString
  selector : Option LabelSelector
deriving DecidableEq, Repr

/-- A `gatewayv1.RouteGroupKind` entry of `allowedRoutes.kinds`. -/
structure RouteGroupKind where
  group : Option GoString
  kind : GoString
deriving DecidableEq, Repr

/-- A `gatewayv1.AllowedRoutes`: both fields are nil-able in Go. -/
structure AllowedRoutes where
  namespaces : Option RouteNamespaces
  kinds : Option (List RouteGroupKind)
deriving DecidableEq, Repr

/-- A `gatewayv1.SecretObjectReference`. -/
structure SecretObjectReference where
  group : Option GoString
  kind : Option GoString
  name : GoString
  namespc : Option GoString
deriving DecidableEq, Repr

/-- A `gatewayv1.GatewayTLSConfig` on a listener. -/
structure ListenerTLS where
  mode : Option GoString
  certificateRefs : List SecretObjectReference
deriving DecidableEq, Repr

/-- A `gatewayv1.Listener`: protocol and TLS mode are the Gateway API
string constants (`"HTTP"`, `"HTTPS"`, `"TLS"`, `"TCP"`, `"UDP"`;
`"Terminate"`, `"Passthrough"`). -/
structure Listener where
  name : GoString
  port : Nat
  protocol : GoString
  hostname : Option GoString
  tls : Option ListenerTLS
  allowedRoutes : Option AllowedRoutes
deriving DecidableEq, Repr

/-- A `gatewayv1.Gateway` (namespace, name, listeners). -/
structure Gateway where
  namespc : GoString
  name : GoString
  listeners : List Listener
deriving DecidableEq, Repr

/-- A `gatewayv1.BackendObjectReference`. -/
structure BackendObjectReference where
  group : Option GoString
  kind : Option GoString
  name : GoString
  namespc : Option GoString
  port : Option Nat
deriving DecidableEq, Repr

/-- A `corev1.ServicePort` (the fields read by the synthesizer). -/
structure ServicePort where
  port : Nat
  appProtocol : Option GoString
deriving DecidableEq, Repr

/-- A `corev1.Service` (the fields read by the synthesizer). -/
structure Service where
  namespc : GoString
  name : GoString
  clusterIP : GoString
  ports : List ServicePort
deriving DecidableEq, Repr

/-- Source `internal/gateway.go` `ControllerName` (`caddyserver.com/gateway-controller`). -/
def controllerNameVal : GoString := gs "caddyserver.com/gateway-controller"

/-- Source `internal/gateway.go` `MatchesControllerName`: prefix match
against the controller name. -/
def matchesControllerName (v : GoString) : Bool := goHasPrefix v controllerNameVal

/-- Source `internal/gateway.go` `IsService`: group nil or the core group
(empty string) and kind nil or `Service`. -/
def isService (be : BackendObjectReference) : Bool :=
  (be.group = none ∨ be.group = some (gs "")) ∧ (be.kind = none ∨ be.kind = some (gs "Service"))

/-! ## Route attachment — `internal/controller/route.go` -/

/-- View of a route as a `metav1.Object` plus its Gateway API kind, as
used by the controller helpers. -/
structure RouteObject where
  namespc : GoString
  name : GoString
  kind : GoString
deriving DecidableEq, Repr

/-- Source `internal/controller/route.go` `isAttachable`: some recorded
parent status must target the Gateway (namespace defaulted by the route
namespace) and carry `Accepted=True` or `ResolvedRefs=False`. -/
def isAttachable (gw : Gateway) (route : RouteObject) (parents : List RouteParentStatus) : Bool :=
  parents.any fun rps =>
    (namespaceDerefOr rps.parentRef.namespc route.namespc == gw.namespc) &&
    (rps.parentRef.name == gw.name) &&
    rps.conditions.any fun cond =>
      (cond.condType == gs "Accepted" && cond.status == gs "True") ||
      (cond.condType == gs "ResolvedRefs" && cond.status == gs "False")

/-- Scan of `allowedRoutes.kinds` inside `isKindAllowed`: the first entry
with a recognized kind decides; unrecognized entries are skipped. -/
def isKindAllowedScan (routeKind : GoString) : List RouteGroupKind → Bool
  | [] => false
  | k :: rest =>
    if k.kind = gs "HTTPRoute" then routeKind == gs "HTTPRoute"
    else if k.kind = gs "GRPCRoute" then routeKind == gs "GRPCRoute"
    else if k.kind = gs "TCPRoute" then routeKind == gs "TCPRoute"
    else if k.kind = gs "TLSRoute" then routeKind == gs "TLSRoute"
    else if k.kind = gs "UDPRoute" then routeKind == gs "UDPRoute"
    else isKindAllowedScan routeKind rest

/-- Source `internal/controller/route.go` `isKindAllowed` (only called
when `allowedRoutes` is non-nil). -/
def isKindAllowed (ar : AllowedRoutes) (route : RouteObject) : Bool :=
  match ar.kinds with
  | none => true
  | some ks => isKindAllowedScan route.kind ks

/-- Oracle for the Kubernetes namespace list used by the `Selector`
branch of `isAllowed`: given the listener's selector it returns the
matching namespace names, or `none` when the list call fails. -/
abbrev NamespaceListOracle := Option LabelSelector → Option (List GoString)

/-- Listener loop of `isAllowed` (source `internal/controller/route.go`):
a listener without `allowedRoutes`/`namespaces` immediately decides by
namespace equality for the whole Gateway. -/
def isAllowedLoop (nsList : NamespaceListOracle) (gw : Gateway) (route : RouteObject) :
    List Listener → Bool
  | [] => false
  | listener :: rest =>
    match listener.allowedRoutes with
    | none => route.namespc == gw.namespc
    | some ar =>
      match ar.namespaces with
      | none => route.namespc == gw.namespc
      | some nss =>
        if ¬isKindAllowed ar route then isAllowedLoop nsList gw route rest
        else if nss.fromKindOf = gs "All" then true
        else if nss.fromKindOf = gs "Same" then
          if route.namespc = gw.namespc then true
          else isAllowedLoop nsList gw route rest
        else if nss.fromKindOf = gs "Selector" then
          match nsList nss.selector with
          | none => false
          | some names =>
            if route.namespc ∈ names then true
            else isAllowedLoop nsList gw route rest
        else isAllowedLoop nsList gw route rest

/-- Source `internal/controller/route.go` `isAllowed`: whether the route
is allowed to attach to the Gateway by its listeners' allow-lists. -/
def isAllowed (nsList : NamespaceListOracle) (gw : Gateway) (route : RouteObject) : Bool :=
  isAllowedLoop nsList gw route gw.listeners

/-! ## Caddy HTTP model — `internal/caddyv2/caddyhttp` -/

/-- A `caddyhttp.MatchRegexp` (compiled pattern kept as its source text). -/
structure MatchRegexp where
  name : GoString := []
  pattern : GoString
deriving DecidableEq, Repr

/-- A `caddyhttp.Match`: one matcher set. Matcher kinds never populated
by the synthesizer keep a unit payload. -/
structure HTTPMatch where
  clientIP : Option Unit := none
  expression : Option Unit := none
  header : Option (List (GoString × List GoString)) := none
  headerRE : Option (List (GoString × MatchRegexp)) := none
  host : List GoString := []
  method : List GoString := []
  notCond : Option Unit := none
  path : List GoString := []
  pathRE : Option MatchRegexp := none
  protocol : GoString := []
  query : Option (List (GoString × List GoString)) := none
  remoteIP : Option Unit := none
  vars : List Unit := []
  varsRE : List Unit := []
deriving DecidableEq, Repr

/-- Source `internal/caddyv2/caddyhttp/matchers.go` `Match.IsEmpty`. -/
def matchIsEmpty (m : HTTPMatch) : Bool :=
  if m.clientIP ≠ none then false
  else if m.expression ≠ none then false
  else if m.header ≠ none then false
  else if m.headerRE ≠ none then false
  else if m.host.length > 0 then false
  else if m.method.length > 0 then false
  else if m.notCond ≠ none then false
  else if m.path.length > 0 then false
  else if m.pathRE ≠ none then false
  else if m.protocol ≠ [] then false
  else if (match m.query with | some q => decide (q.length > 0) | none => false) then false
  else if m.remoteIP ≠ none then false
  else if m.vars.length > 0 then false
  else if m.varsRE.length > 0 then false
  else true

/-- A `gatewayv1.HTTPPathMatch` (type and value may be nil). -/
structure HTTPPathMatch where
  matchType : Option GoString := none
  value : Option GoString := none
deriving DecidableEq, Repr

/-- A `gatewayv1.HTTPHeaderMatch`. -/
structure HTTPHeaderMatch where
  matchType : Option GoString := none
  name : GoString
  value : GoString
deriving DecidableEq, Repr

/-- A `gatewayv1.HTTPQueryParamMatch`. -/
structure HTTPQueryParamMatch where
  matchType : Option GoString := none
  name : GoString
  value : GoString
deriving DecidableEq, Repr

/-- A `gatewayv1.HTTPRouteMatch`. -/
structure HTTPRouteMatch where
  path : Option HTTPPathMatch := none
  headers : Option (List HTTPHeaderMatch) := none
  queryParams : Option (List HTTPQueryParamMatch) := none
  method : Option GoString := none
deriving DecidableEq, Repr

/-- Source caddy matchers file `getPathMatcher`: `Exact` gives a literal
path, `PathPrefix` appends `*`, `RegularExpression` fills the regexp
matcher; a `/` prefix match produces no matcher at all. -/
def getPathMatcher (matcher : HTTPMatch) (path : Option HTTPPathMatch) : HTTPMatch :=
  match path with
  | none => matcher
  | some p =>
    match p.value with
    | none => matcher
    | some value =>
      if value = [] then matcher
      else
        let matchType := match p.matchType with
          | none => gs "PathPrefix"
          | some t => t
        if value = gs "/" ∧ matchType = gs "PathPrefix" then matcher
        else if matchType = gs "Exact" then { matcher with path := [value] }
        else if matchType = gs "PathPrefix" then { matcher with path := [value ++ gs "*"] }
        else if matchType = gs "RegularExpression" then
          { matcher with pathRE := some { pattern := value } }
        else matcher

/-- Source caddy matchers file `getHeaderMatcher`: the body is an
unimplemented TODO (`// TODO: implement`); it returns a nil error and
leaves the matcher untouched. -/
def getHeaderMatcher (matcher : HTTPMatch) (_v : Option (List HTTPHeaderMatch)) : HTTPMatch :=
  matcher

/-- Source caddy matchers file `getQueryMatcher`: the body is an
unimplemented TODO (`// TODO: implement`); it returns a nil error and
leaves the matcher untouched. -/
def getQueryMatcher (matcher : HTTPMatch) (_v : Option (List HTTPQueryParamMatch)) : HTTPMatch :=
  matcher

/-- Source caddy matchers file `getMethodMatcher`. -/
def getMethodMatcher (matcher : HTTPMatch) (m : Option GoString) : HTTPMatch :=
  match m with
  | none => matcher
  | some mm => { matcher with method := [mm] }

/-- Per-rule matcher assembly from `getHTTPServer` (source
`internal/caddy/tls.go`): each match term present on a rule match is
folded into the single rule matcher. -/
def buildMatchStep (mt : HTTPMatch) (m : HTTPRouteMatch) : HTTPMatch :=
  let mt := match m.path with
    | some _ => getPathMatcher mt m.path
    | none => mt
  let mt := match m.headers with
    | some _ => getHeaderMatcher mt m.headers
    | none => mt
  let mt := match m.queryParams with
    | some _ => getQueryMatcher mt m.queryParams
    | none => mt
  match m.method with
  | some _ => getMethodMatcher mt m.method
  | none => mt

/-- The rule matcher is the fold of `buildMatchStep` over the rule's
matches, starting from the empty matcher. -/
def buildRuleMatcher (terms : List HTTPRouteMatch) : HTTPMatch :=
  terms.foldl buildMatchStep {}

/-! ## HTTP headers and handlers -/

/-- Characters permitted in a MIME header token (Go
`textproto.validHeaderFieldByte`); code 39 is the apostrophe and code 96
the backtick. -/
def isTokenChar (c : Char) : Bool :=
  c.isAlpha || c.isDigit ||
    ['!', '#', '$', '%', '&', Char.ofNat 39, '*', '+', '-', '.',
      '^', '_', Char.ofNat 96, '|', '~'].contains c

/-- Character walk of Go `textproto.CanonicalMIMEHeaderKey`: uppercase at
the start and after a dash, lowercase elsewhere. -/
def canonicalChars (upper : Bool) : GoString → GoString
  | [] => []
  | c :: rest => (if upper then c.toUpper else c.toLower) :: canonicalChars (c = '-') rest

/-- Go `textproto.CanonicalMIMEHeaderKey`: canonicalizes a valid header
key and returns invalid keys unchanged. -/
def canonicalMIMEKey (s : GoString) : GoString :=
  if s.all isTokenChar then canonicalChars true s else s

/-- Appends a value under an (already canonical) key of an
`http.Header`, keeping insertion order for new keys. -/
def headerAddCanon (ck value : GoString) :
    List (GoString × List GoString) → List (GoString × List GoString)
  | [] => [(ck, [value])]
  | (k, vs) :: rest =>
    if k = ck then (k, vs ++ [value]) :: rest
    else (k, vs) :: headerAddCanon ck value rest

/-- Go `http.Header.Add`: canonicalizes the key and appends the value. -/
def httpHeaderAdd (h : List (GoString × List GoString)) (key value : GoString) :
    List (GoString × List GoString) :=
  headerAddCanon (canonicalMIMEKey key) value h

/-- A `gatewayv1.HTTPHeader` (name/value pair). -/
structure HTTPHeader where
  name : GoString
  value : GoString
deriving DecidableEq, Repr

/-- `headers.HeaderOps` of the Caddy headers handler. -/
structure HeaderOps where
  add : List (GoString × List GoString) := []
  set : List (GoString × List GoString) := []
  delete : List GoString := []
deriving DecidableEq, Repr

/-- Source `internal/caddy/tls.go` `getHeaderReplacements`. -/
def getHeaderReplacements (add set : List HTTPHeader) (remove : List GoString) : HeaderOps :=
  let ops : HeaderOps := { delete := remove }
  let ops := add.foldl (fun o h => { o with add := httpHeaderAdd o.add h.name h.value }) ops
  set.foldl (fun o h => { o with set := httpHeaderAdd o.set h.name h.value }) ops

/-- `reverseproxy.TLSConfig` on an upstream transport. -/
structure TLSTransportConfig where
  serverName : GoString := []
  ca : Option (List GoString) := none
deriving DecidableEq, Repr

/-- `reverseproxy.HTTPTransport` (the fields the synthesizer writes). -/
structure HTTPTransport where
  tlsCfg : Option TLSTransportConfig := none
  versions : List GoString := []
deriving DecidableEq, Repr

/-- The Caddy HTTP handlers emitted by the synthesizer. A subroute
carries inner routes as (matcher sets, handlers, terminal) triples. -/
inductive HTTPHandler where
  | staticResponse (statusCode : GoString) (headers : List (GoString × List GoString))
      (body : GoString) (closeConn : Bool)
  | headersHandler (request : Option HeaderOps) (response : Option HeaderOps)
  | reverseProxy (transport : HTTPTransport) (upstreamDials : List GoString)
  | rewriteHandler (uri : GoString) (stripPathPrefixVal : GoString)
  | subroute (routes : List (List HTTPMatch × List HTTPHandler × Bool))

/-- A `caddyhttp.Route`. -/
structure CaddyHTTPRoute where
  matcherSets : List HTTPMatch := []
  handlers : List HTTPHandler := []
  terminal : Bool := false

/-- A `caddytls.ConnectionPolicy` (only the SNI matcher is emitted). -/
structure ConnectionPolicy where
  sni : List GoString
deriving DecidableEq, Repr

/-- A `caddytls.CertKeyPEMPair`. -/
structure CertKeyPEMPair where
  certificatePEM : GoString
  keyPEM : GoString
deriving DecidableEq, Repr

/-- A `caddyhttp.Server` (the fields the synthesizer writes). -/
structure HTTPServer where
  listen : List GoString
  routes : List CaddyHTTPRoute := []
  autoHTTPSDisabled : Bool := false
  metricsEnabled : Bool := false
  errorRoutes : List CaddyHTTPRoute := []
  tlsConnPolicies : List ConnectionPolicy := []

/-- The fresh HTTP server built by `handleHTTPListener` (source
`internal/caddy/caddy.go`) when no server exists for the port key. -/
def newHTTPServer (port : Nat) : HTTPServer :=
  { listen := [gs ":" ++ goItoa port]
    autoHTTPSDisabled := true
    metricsEnabled := true
    errorRoutes := [{
      handlers := [.staticResponse (gs "{http.error.status_code}")
        [(gs "Caddy-Instance", [gs "{system.hostname}"])]
        (gs "{http.error.status_code} {http.error.status_text}\n\n{http.error.message}\n") true]
      terminal := true }] }

/-! ## HTTP route filters — `internal/caddy/tls.go` `getHTTPServer` -/

/-- A `gatewayv1.HTTPPathModifier` (`type` is `ReplaceFullPath` or
`ReplacePrefixMatch`). -/
structure HTTPPathModifier where
  modType : GoString
  replaceFullPath : Option GoString := none
  replacePrefixMatch : Option GoString := none
deriving DecidableEq, Repr

/-- A `gatewayv1.HTTPRequestRedirectFilter`. -/
structure RequestRedirect where
  scheme : Option GoString := none
  hostname : Option GoString := none
  path : Option HTTPPathModifier := none
  port : Option Nat := none
  statusCode : Option Nat := none
deriving DecidableEq, Repr

/-- A `gatewayv1.HTTPURLRewriteFilter`. -/
structure URLRewrite where
  hostname : Option GoString := none
  path : Option HTTPPathModifier := none
deriving DecidableEq, Repr

/-- A `gatewayv1.HTTPHeaderFilter` payload. -/
structure HTTPHeaderModifier where
  add : List HTTPHeader := []
  set : List HTTPHeader := []
  remove : List GoString := []
deriving DecidableEq, Repr

/-- A `gatewayv1.HTTPRouteFilter` (type string plus nil-able payloads). -/
structure HTTPRouteFilter where
  filterType : GoString
  requestHeaderModifier : Option HTTPHeaderModifier := none
  responseHeaderModifier : Option HTTPHeaderModifier := none
  requestRedirect : Option RequestRedirect := none
  urlRewrite : Option URLRewrite := none
  requestMirror : Option Unit := none
  corsCfg : Option Unit := none
  extensionRef : Option Unit := none
deriving DecidableEq, Repr

/-- Scheme and port resolution of the `RequestRedirect` branch of
`getHTTPServer` (source `internal/caddy/tls.go`): with an explicit
scheme, an unset (or zero) port is inferred as http→80, https→443, else
the listener port; without a scheme, the Caddy scheme placeholder is
used and the port is overwritten with the listener port. -/
def redirectSchemePort (v : RequestRedirect) (listenerPort : Nat) : GoString × Nat :=
  let port := match v.port with
    | some p => p
    | none => 0
  match v.scheme with
  | some s =>
    if port = 0 then
      if s = gs "http" then (s, 80)
      else if s = gs "https" then (s, 443)
      else (s, listenerPort)
    else (s, port)
  | none => (gs "{http.request.scheme}", listenerPort)

/-- Location header assembly of the `RequestRedirect` branch of
`getHTTPServer` (source `internal/caddy/tls.go`): scheme, `://`,
hostname, the port (omitted for http/80 and https/443), then the
explicit full-replace path (with a `/` prepended when missing), nothing
for a prefix-match modifier, or the URI placeholder when no path
modifier is present. -/
def redirectLocation (v : RequestRedirect) (listenerPort : Nat) : GoString :=
  let sp := redirectSchemePort v listenerPort
  let scheme := sp.1
  let port := sp.2
  let hostname := match v.hostname with
    | some h => h
    | none => gs "{http.request.host}"
  let base := scheme ++ gs "://" ++ hostname
  let withPort :=
    if (scheme = gs "http" ∧ port = 80) ∨ (scheme = gs "https" ∧ port = 443) then base
    else base ++ gs ":" ++ goItoa port
  match v.path with
  | some p =>
    if p.modType = gs "ReplaceFullPath" then
      match p.replaceFullPath with
      | none => withPort
      | some path =>
        withPort ++ (if goHasPrefix path (gs "/") then path else gs "/" ++ path)
    else withPort
  | none => withPort ++ gs "{http.request.uri}"

/-- Status code of the `RequestRedirect` branch: defaults to 302. -/
def redirectStatusCode (v : RequestRedirect) : Nat :=
  match v.statusCode with
  | some c => c
  | none => 302

/-- The static response handler emitted for a `RequestRedirect` filter. -/
def redirectHandler (v : RequestRedirect) (listenerPort : Nat) : HTTPHandler :=
  .staticResponse (goItoa (redirectStatusCode v))
    [(canonicalMIMEKey (gs "Location"), [redirectLocation v listenerPort])] [] false

/-- The rewrite handler emitted for a `URLRewrite` filter (source
`internal/caddy/tls.go`): full-replace sets the URI; a prefix match with
replacement `/` and a present path matcher becomes strip-path-prefix
(matched prefix with the trailing `*` trimmed); other cases emit an
empty rewrite. -/
def urlRewriteHandler (v : URLRewrite) (matcher : HTTPMatch) : HTTPHandler :=
  let uri : GoString := match v.path with
    | some p =>
      if p.modType = gs "ReplaceFullPath" then
        match p.replaceFullPath with
        | some s => s
        | none => []
      else []
    | none => []
  let strip : GoString := match v.path with
    | some p =>
      if p.modType = gs "ReplacePrefixMatch" then
        match p.replacePrefixMatch with
        | some repl =>
          if repl = gs "/" ∧ matcher.path.length > 0 then
            goTrimSuffix (matcher.path.headD []) (gs "*")
          else []
        | none => []
      else []
    | none => []
  .rewriteHandler uri strip

/-- Filter switch of `getHTTPServer` (source `internal/caddy/tls.go`):
folds one filter into the rule handler list and the route terminal flag.
`RequestMirror`, `CORS` and `ExtensionRef` are recognized but emit no
handler; a redirect marks the route terminal. -/
def applyFilter (listenerPort : Nat) (matcher : HTTPMatch)
    (st : List HTTPHandler × Bool) (f : HTTPRouteFilter) : List HTTPHandler × Bool :=
  if f.filterType = gs "RequestHeaderModifier" then
    match f.requestHeaderModifier with
    | none => st
    | some v =>
      (st.1 ++ [.headersHandler (some (getHeaderReplacements v.add v.set v.remove)) none], st.2)
  else if f.filterType = gs "ResponseHeaderModifier" then
    match f.responseHeaderModifier with
    | none => st
    | some v =>
      (st.1 ++ [.headersHandler none (some (getHeaderReplacements v.add v.set v.remove))], st.2)
  else if f.filterType = gs "RequestRedirect" then
    match f.requestRedirect with
    | none => st
    | some v => (st.1 ++ [redirectHandler v listenerPort], true)
  else if f.filterType = gs "URLRewrite" then
    match f.urlRewrite with
    | none => st
    | some v => (st.1 ++ [urlRewriteHandler v matcher], st.2)
  else st

/-! ## Backends, routes, servers -/

/-- A `gatewayv1.BackendRef` (the weight is never read by the
synthesizer). -/
structure BackendRef where
  bor : BackendObjectReference
  weight : Option Int := none
deriving DecidableEq, Repr

/-- A `gatewayv1.HTTPRouteRule`. -/
structure HTTPRouteRule where
  routeMatches : List HTTPRouteMatch := []
  filters : List HTTPRouteFilter := []
  backendRefs : List BackendRef := []
deriving DecidableEq, Repr

/-- A `gatewayv1.HTTPRoute` (spec fields read by the system plus the
recorded route status). -/
structure HTTPRoute where
  namespc : GoString
  name : GoString
  hostnames : List GoString := []
  rules : List HTTPRouteRule := []
  statusParents : List RouteParentStatus := []
deriving DecidableEq, Repr

/-- A TLS/TCP/UDP route rule (`gatewayv1alpha2`): backend refs only. -/
structure L4RouteRule where
  backendRefs : List BackendRef := []
deriving DecidableEq, Repr

/-- A `gatewayv1alpha2.TLSRoute`. -/
structure TLSRoute where
  namespc : GoString
  name : GoString
  hostnames : List GoString := []
  rules : List L4RouteRule := []
  statusParents : List RouteParentStatus := []
deriving DecidableEq, Repr

/-- A `gatewayv1alpha2.TCPRoute`. -/
structure TCPRoute where
  namespc : GoString
  name : GoString
  rules : List L4RouteRule := []
  statusParents : List RouteParentStatus := []
deriving DecidableEq, Repr

/-- A `gatewayv1alpha2.UDPRoute`. -/
structure UDPRoute where
  namespc : GoString
  name : GoString
  rules : List L4RouteRule := []
  statusParents : List RouteParentStatus := []
deriving DecidableEq, Repr

/-- A `gatewayv1.LocalObjectReference` / `gatewayv1beta1.LocalObjectReference`. -/
structure LocalObjectReference where
  group : GoString
  kind : GoString
  name : GoString
deriving DecidableEq, Repr

/-- A `gatewayv1.LocalPolicyTargetReference`. -/
structure LocalPolicyTargetReference where
  group : GoString
  kind : GoString
  name : GoString
deriving DecidableEq, Repr

/-- The `validation` block of a `BackendTLSPolicy`. -/
structure BackendTLSValidation where
  hostname : GoString := []
  caCertificateRefs : List LocalObjectReference := []
deriving DecidableEq, Repr

/-- A `gatewayv1alpha3.BackendTLSPolicy`. -/
structure BackendTLSPolicy where
  name : GoString
  targetRefs : List LocalPolicyTargetReference := []
  validation : BackendTLSValidation := {}
deriving DecidableEq, Repr

/-- Source `internal/gateway.go` `IsLocalPolicyTargetService`. -/
def isLocalPolicyTargetService (t : LocalPolicyTargetReference) : Bool :=
  t.group = gs "" ∧ t.kind = gs "Service"

/-- Source `internal/gateway.go` `IsLocalConfigMap`. -/
def isLocalConfigMap (r : LocalObjectReference) : Bool :=
  r.group = gs "" ∧ r.kind = gs "ConfigMap"

/-- Source `internal/gateway.go` `IsLocalSecret`. -/
def isLocalSecret (r : LocalObjectReference) : Bool :=
  r.group = gs "" ∧ r.kind = gs "Secret"

/-- Source `internal/gateway.go` `IsSecret` on a `SecretObjectReference`. -/
def isSecretRef (r : SecretObjectReference) : Bool :=
  (r.group = none ∨ r.group = some (gs "")) ∧ (r.kind = none ∨ r.kind = some (gs "Secret"))

/-- One parsed PEM block (external `encoding/pem` collaborator). -/
structure PemBlock where
  blockType : GoString
  headersEmpty : Bool
  bytes : GoString
deriving DecidableEq, Repr

/-- The synthesizer input (source `internal/caddy/caddy.go` `Input`).
The Kubernetes client and the Go standard-library codecs are external
collaborators and enter as oracle functions. -/
structure Input where
  gateway : Gateway
  httpRoutes : List HTTPRoute := []
  tcpRoutes : List TCPRoute := []
  tlsRoutes : List TLSRoute := []
  udpRoutes : List UDPRoute := []
  grants : List ReferenceGrant := []
  backendTLSPolicies : List BackendTLSPolicy := []
  services : List Service := []
  secretGet : GoString → GoString → Except GoString (List (GoString × GoString))
  configMapGet : GoString → GoString → Except GoString (List (GoString × GoString))
  pemDecodeAll : GoString → List PemBlock
  base64enc : GoString → GoString

/-- Source `internal/caddy/caddy.go` `isRouteForListener`: some recorded
parent status must match the controller, reference this Gateway, and
satisfy the optional sectionName/port constraints. -/
def isRouteForListener (gw : Gateway) (l : Listener) (rNS : GoString)
    (parents : List RouteParentStatus) : Bool :=
  parents.any fun p =>
    matchesControllerName p.controllerName &&
    (p.parentRef.group == none || p.parentRef.group == some (gs "gateway.networking.k8s.io")) &&
    (p.parentRef.kind == none || p.parentRef.kind == some (gs "Gateway")) &&
    (namespaceDerefOr p.parentRef.namespc rNS == gw.namespc) &&
    (p.parentRef.name == gw.name) &&
    ((p.parentRef.sectionName == none && p.parentRef.port == none) ||
      ((p.parentRef.sectionName == none || p.parentRef.sectionName == some l.name) &&
        (p.parentRef.port == none || p.parentRef.port == some l.port)))

/-- Service lookup loop shared by the synthesizer builders: first
service matching the (dereferenced) namespace and name. -/
def findService (services : List Service) (ns name : GoString) : Option Service :=
  services.find? fun s => s.namespc == ns && s.name == name

/-- Service port lookup: first declared port equal to the referenced
port (the Go code falls back to the zero `ServicePort` when absent). -/
def findServicePort (svc : Service) (port : Nat) : Option ServicePort :=
  svc.ports.find? fun p => p.port == port

/-- First BackendTLSPolicy whose target refs contain a local Service
target naming the service (source `getHTTPServer`). -/
def findBackendTLSPolicy (policies : List BackendTLSPolicy) (svcName : GoString) :
    Option BackendTLSPolicy :=
  policies.find? fun btp =>
    btp.targetRefs.any fun tf => isLocalPolicyTargetService tf && tf.name == svcName

/-- Key lookup in a Kubernetes object `data` map. -/
def lookupData (data : List (GoString × GoString)) (key : GoString) : Option GoString :=
  (data.find? fun kv => kv.1 == key).map (·.2)

/-- Source `internal/caddy/tls.go` `getCAPool`: reads `ca.crt` from a
referenced ConfigMap or Secret; unknown kinds and missing keys yield nil
bytes; client errors propagate. -/
def getCAPool (i : Input) (ref : LocalObjectReference) : Except GoString (Option GoString) :=
  if isLocalConfigMap ref then
    match i.configMapGet i.gateway.namespc ref.name with
    | .error e => .error e
    | .ok data =>
      match lookupData data (gs "ca.crt") with
      | some certs => .ok (some certs)
      | none => .ok none
  else if isLocalSecret ref then
    match i.secretGet i.gateway.namespc ref.name with
    | .error e => .error e
    | .ok data =>
      match lookupData data (gs "ca.crt") with
      | some certs => .ok (some certs)
      | none => .ok none
  else .ok none

/-- Source `internal/caddy/tls.go` `getCertKeyPEMPair`: non-Secret refs
and Secrets missing `tls.crt`/`tls.key` yield the empty pair; client
errors propagate. -/
def getCertKeyPEMPair (i : Input) (ref : SecretObjectReference) :
    Except GoString CertKeyPEMPair :=
  if ¬isSecretRef ref then .ok { certificatePEM := [], keyPEM := [] }
  else
    match i.secretGet (namespaceDerefOr ref.namespc i.gateway.namespc) ref.name with
    | .error e => .error e
    | .ok data =>
      match lookupData data (gs "tls.crt") with
      | none => .ok { certificatePEM := [], keyPEM := [] }
      | some cert =>
        match lookupData data (gs "tls.key") with
        | none => .ok { certificatePEM := [], keyPEM := [] }
        | some key => .ok { certificatePEM := cert, keyPEM := key }

/-- CA collection loop of the BackendTLSPolicy branch of
`getHTTPServer`: every PEM `CERTIFICATE` block without headers becomes a
base64 DER entry. -/
def caCertsOfRefs (i : Input) (refs : List LocalObjectReference) :
    Except GoString (List GoString) :=
  refs.foldlM (fun acc ref => do
    let pool ← getCAPool i ref
    let pemCerts := match pool with
      | some b => b
      | none => []
    let blocks := if pemCerts.isEmpty then [] else i.pemDecodeAll pemCerts
    pure (acc ++ ((blocks.filter fun b =>
      b.blockType == gs "CERTIFICATE" && b.headersEmpty).map fun b => i.base64enc b.bytes)))
    []

/-- Backend-ref processing of `getHTTPServer` (source
`internal/caddy/tls.go`): non-Service refs, refs without a port and
unresolved Services are skipped; a matched BackendTLSPolicy configures
upstream TLS; otherwise `kubernetes.io/h2c` enables h2c; the emitted
handler is a reverse proxy dialing `<ClusterIP>:<port>`. -/
def backendRefHandler (i : Input) (routeNS : GoString) (bf : BackendRef) :
    Except GoString (Option HTTPHandler) :=
  let bor := bf.bor
  if ¬isService bor then .ok none
  else
    match bor.port with
    | none => .ok none
    | some port =>
      match findService i.services (namespaceDerefOr bor.namespc routeNS) bor.name with
      | none => .ok none
      | some service => do
        let sp := (findServicePort service port).getD { port := 0, appProtocol := none }
        let bTLSPolicy := (findBackendTLSPolicy i.backendTLSPolicies service.name).getD
          { name := [] }
        let transport : HTTPTransport ←
          if bTLSPolicy.name ≠ [] then do
            let tlsA : TLSTransportConfig :=
              { serverName :=
                  if bTLSPolicy.validation.hostname ≠ [] then bTLSPolicy.validation.hostname
                  else [] }
            let tlsB ←
              if bTLSPolicy.validation.caCertificateRefs.length > 0 then do
                let certs ← caCertsOfRefs i bTLSPolicy.validation.caCertificateRefs
                pure { tlsA with ca := some certs }
              else pure tlsA
            pure ({ tlsCfg := some tlsB } : HTTPTransport)
          else if sp.appProtocol ≠ none then
            pure (if sp.appProtocol = some (gs "kubernetes.io/h2c") then
                ({ versions := [gs "h2c"] } : HTTPTransport)
              else {})
          else pure {}
        pure (some (.reverseProxy transport [goJoinHostPort service.clusterIP (goItoa port)]))

/-- Backend loop of `getHTTPServer`: appends one handler per accepted
backend ref, in order. -/
def ruleBackendHandlers (i : Input) (routeNS : GoString) (refs : List BackendRef) :
    Except GoString (List HTTPHandler) :=
  refs.foldlM (fun acc bf => do
    match ← backendRefHandler i routeNS bf with
    | none => pure acc
    | some h => pure (acc ++ [h])) []

/-- Per-route assembly of `getHTTPServer`: a host matcher from the route
hostnames, then per rule a sub-matcher, filter handlers and backend
handlers, wrapped in a subroute when the sub-matcher is non-empty;
routes with no handlers and no matchers are dropped. -/
def httpRouteToCaddyRoute (i : Input) (l : Listener) (hr : HTTPRoute) :
    Except GoString (Option CaddyHTTPRoute) := do
  let matchers : List HTTPMatch :=
    if hr.hostnames.length > 0 then [{ host := hr.hostnames }] else []
  let (handlers, terminal) ← hr.rules.foldlM
    (fun (st : List HTTPHandler × Bool) rule => do
      let matcher := buildRuleMatcher rule.routeMatches
      let fState := rule.filters.foldl (applyFilter l.port matcher) ([], st.2)
      let backendHs ← ruleBackendHandlers i hr.namespc rule.backendRefs
      let ruleHandlers := fState.1 ++ backendHs
      let newHandlers :=
        if ¬matchIsEmpty matcher then
          st.1 ++ [HTTPHandler.subroute [([matcher], ruleHandlers, false)]]
        else st.1 ++ ruleHandlers
      pure (newHandlers, fState.2))
    (([], false) : List HTTPHandler × Bool)
  if handlers.length = 0 ∧ matchers.length = 0 then pure none
  else pure (some { matcherSets := matchers, handlers := handlers, terminal := terminal })

/-- Source `internal/caddy/tls.go` `getHTTPServer`: appends the routes
of every attached HTTP route, then (for TLS listeners) a TLS connection
policy with an SNI matcher when the listener has a hostname, and
collects non-empty certificate pairs from the TLS certificate refs. -/
def getHTTPServer (i : Input) (s : HTTPServer) (l : Listener) :
    Except GoString (HTTPServer × List CertKeyPEMPair) := do
  let hostname : GoString := match l.hostname with
    | some h => h
    | none => []
  let attached := i.httpRoutes.filter fun hr =>
    isRouteForListener i.gateway l hr.namespc hr.statusParents
  let routes ← attached.foldlM (fun acc hr => do
      match ← httpRouteToCaddyRoute i l hr with
      | none => pure acc
      | some r => pure (acc ++ [r])) ([] : List CaddyHTTPRoute)
  let s := { s with routes := s.routes ++ routes }
  match l.tls with
  | none => pure (s, [])
  | some tlsCfg => do
    let s :=
      if hostname ≠ [] then
        { s with tlsConnPolicies := s.tlsConnPolicies ++ [{ sni := [hostname] }] }
      else s
    let pems ← tlsCfg.certificateRefs.foldlM (fun acc ref => do
        let pair ← getCertKeyPEMPair i ref
        if pair.certificatePEM = [] ∨ pair.keyPEM = [] then pure acc
        else pure (acc ++ [pair])) ([] : List CertKeyPEMPair)
    pure (s, pems)

/-! ## Layer-4 model — `internal/layer4`, `internal/caddy/tls_passthrough.go` -/

/-- A `layer4.Match` (the synthesizer only emits the TLS SNI matcher). -/
structure L4Match where
  tlsSNI : Option (List GoString) := none
deriving DecidableEq, Repr

/-- The Layer-4 handlers emitted by the synthesizer. -/
inductive L4Handler where
  | tlsTerminate
  | l4proxy (dials : List GoString)
deriving DecidableEq, Repr

/-- A `layer4.Route`. -/
structure L4Route where
  matcherSets : List L4Match := []
  handlers : List L4Handler := []
deriving DecidableEq, Repr

/-- A `layer4.Server`. -/
structure L4Server where
  listen : List GoString
  routes : List L4Route := []
deriving DecidableEq, Repr

/-- Rule loop of `getTLSServer` (source
`internal/caddy/tls_passthrough.go`): only a single backend ref is
supported (weights are not supported for the layer4 proxy), so a rule
with any other number of backend refs is skipped entirely; otherwise a
proxy handler dialing `<ClusterIP>:<port>` is emitted. -/
def tlsRuleProxyHandler (services : List Service) (routeNS : GoString) (rule : L4RouteRule) :
    Option L4Handler :=
  match rule.backendRefs with
  | [bf] =>
    if ¬isService bf.bor then none
    else
      match bf.bor.port with
      | none => none
      | some port =>
        match findService services (namespaceDerefOr bf.bor.namespc routeNS) bf.bor.name with
        | none => none
        | some service =>
          some (.l4proxy [goJoinHostPort service.clusterIP (goItoa port)])
  | _ => none

/-- Per-route assembly of `getTLSServer` (source
`internal/caddy/tls_passthrough.go`): an SNI matcher when the route has
hostnames; a leading TLS termination handler unless the listener mode is
`Passthrough`; then the rule proxy handlers. -/
def tlsRouteToL4Route (i : Input) (l : Listener) (tr : TLSRoute) : L4Route :=
  let matchers : List L4Match :=
    if tr.hostnames.length > 0 then [{ tlsSNI := some tr.hostnames }] else []
  let addTermination : Bool :=
    match l.tls with
    | none => true
    | some t =>
      match t.mode with
      | none => true
      | some m => m == gs "Terminate"
  let handlers0 : List L4Handler := if addTermination then [.tlsTerminate] else []
  { matcherSets := matchers
    handlers := handlers0 ++ tr.rules.filterMap (tlsRuleProxyHandler i.services tr.namespc) }

/-- Source `internal/caddy/tls_passthrough.go` `getTLSServer`: appends
one Layer-4 route per attached TLS route. -/
def getTLSServer (i : Input) (s : L4Server) (l : Listener) : L4Server :=
  let attached := i.tlsRoutes.filter fun tr =>
    isRouteForListener i.gateway l tr.namespc tr.statusParents
  { s with routes := s.routes ++ attached.map (tlsRouteToL4Route i l) }

/-- Rule loop of `getUDPServer` (source unnamed caddy UDP file): only a
single backend ref is supported (weights are not supported for the
layer4 proxy), so a rule with any other number of backend refs is
skipped entirely; otherwise a proxy handler dialing
`udp/<ClusterIP>:<port>` is emitted. -/
def udpRuleProxyHandler (services : List Service) (routeNS : GoString) (rule : L4RouteRule) :
    Option L4Handler :=
  match rule.backendRefs with
  | [bf] =>
    if ¬isService bf.bor then none
    else
      match bf.bor.port with
      | none => none
      | some port =>
        match findService services (namespaceDerefOr bf.bor.namespc routeNS) bf.bor.name with
        | none => none
        | some service =>
          some (.l4proxy [gs "udp/" ++ goJoinHostPort service.clusterIP (goItoa port)])
  | _ => none

/-- Per-route assembly of `getUDPServer`: no matcher, only the rule
proxy handlers. -/
def udpRouteToL4Route (i : Input) (tr : UDPRoute) : L4Route :=
  { handlers := tr.rules.filterMap (udpRuleProxyHandler i.services tr.namespc) }

/-- Source unnamed caddy UDP file `getUDPServer`: appends one Layer-4
route per attached UDP route. -/
def getUDPServer (i : Input) (s : L4Server) (l : Listener) : L4Server :=
  let attached := i.udpRoutes.filter fun tr =>
    isRouteForListener i.gateway l tr.namespc tr.statusParents
  { s with routes := s.routes ++ attached.map (udpRouteToL4Route i) }

/-- Modelled from the spec: `getTCPServer` is called by
`handleLayer4Listener` but its definition is not among the provided
sources. Per spec §4.5 Layer-4 assembly, TCP routes get no matcher and a
single-backend proxy handler dialing `<ClusterIP>:<port>`, mirroring the
UDP builder without the dial prefix. -/
def tcpRuleProxyHandler (services : List Service) (routeNS : GoString) (rule : L4RouteRule) :
    Option L4Handler :=
  match rule.backendRefs with
  | [bf] =>
    if ¬isService bf.bor then none
    else
      match bf.bor.port with
      | none => none
      | some port =>
        match findService services (namespaceDerefOr bf.bor.namespc routeNS) bf.bor.name with
        | none => none
        | some service =>
          some (.l4proxy [goJoinHostPort service.clusterIP (goItoa port)])
  | _ => none

/-- Modelled from the spec: per-route assembly of the missing
`getTCPServer` (no matcher, rule proxy handlers only). -/
def tcpRouteToL4Route (i : Input) (tr : TCPRoute) : L4Route :=
  { handlers := tr.rules.filterMap (tcpRuleProxyHandler i.services tr.namespc) }

/-- Modelled from the spec: the missing `getTCPServer`, appending one
Layer-4 route per attached TCP route. -/
def getTCPServer (i : Input) (s : L4Server) (l : Listener) : L4Server :=
  let attached := i.tcpRoutes.filter fun tr =>
    isRouteForListener i.gateway l tr.namespc tr.statusParents
  { s with routes := s.routes ++ attached.map (tcpRouteToL4Route i) }

/-! ## Listener dispatch — `internal/caddy/caddy.go` -/

/-- Lookup in the embedding of a Go map keyed by strings. -/
def mapLookup {α : Type} (m : List (GoString × α)) (k : GoString) : Option α :=
  (m.find? fun kv => kv.1 == k).map (·.2)

/-- Insert-or-replace in the embedding of a Go map keyed by strings. -/
def mapInsert {α : Type} : List (GoString × α) → GoString → α → List (GoString × α)
  | [], k, v => [(k, v)]
  | (k2, v2) :: rest, k, v =>
    if k2 = k then (k, v) :: rest else (k2, v2) :: mapInsert rest k v

/-- The synthesis state held on `Input` during `Config()`
(`httpServers`, `layer4Servers`, `loadPems`). -/
structure SynthState where
  httpServers : List (GoString × HTTPServer) := []
  l4Servers : List (GoString × L4Server) := []
  loadPems : List CertKeyPEMPair := []

/-- Source `internal/caddy/caddy.go` `handleHTTPListener`: fetches or
creates the HTTP server under key `"<port>"`, extends it with the
listener's routes, and records new certificate pairs. -/
def handleHTTPListener (i : Input) (st : SynthState) (l : Listener) :
    Except GoString SynthState := do
  let key := goItoa l.port
  let s := (mapLookup st.httpServers key).getD (newHTTPServer l.port)
  let (server, pems) ← getHTTPServer i s l
  pure { st with
    httpServers := mapInsert st.httpServers key server
    loadPems := st.loadPems ++ pems }

/-- Source `internal/caddy/caddy.go` `handleLayer4Listener`: the server
key is `"udp/<port>"` for UDP listeners and `"tcp/<port>"` otherwise;
the protocol picks the TLS, TCP or UDP builder. -/
def handleLayer4Listener (i : Input) (st : SynthState) (l : Listener) : SynthState :=
  let proto := if l.protocol = gs "UDP" then gs "udp" else gs "tcp"
  let key := proto ++ gs "/" ++ goItoa l.port
  let s := (mapLookup st.l4Servers key).getD
    ({ listen := [proto ++ gs "/:" ++ goItoa l.port] } : L4Server)
  if l.protocol = gs "TLS" then
    { st with l4Servers := mapInsert st.l4Servers key (getTLSServer i s l) }
  else if l.protocol = gs "TCP" then
    { st with l4Servers := mapInsert st.l4Servers key (getTCPServer i s l) }
  else if l.protocol = gs "UDP" then
    { st with l4Servers := mapInsert st.l4Servers key (getUDPServer i s l) }
  else st

/-- Source `internal/caddy/caddy.go` `handleListener`: HTTP and
HTTPS-Terminate listeners go to the HTTP builder; HTTPS listeners with a
non-Terminate TLS mode are ignored; TLS, TCP and UDP listeners go to the
Layer-4 builder; unknown protocols are ignored. -/
def handleListener (i : Input) (st : SynthState) (l : Listener) :
    Except GoString SynthState :=
  if l.protocol = gs "HTTP" then handleHTTPListener i st l
  else if l.protocol = gs "HTTPS" then
    match l.tls with
    | some t =>
      match t.mode with
      | some m =>
        if m ≠ gs "Terminate" then pure st
        else handleHTTPListener i st l
      | none => handleHTTPListener i st l
    | none => handleHTTPListener i st l
  else if l.protocol = gs "TLS" then pure (handleLayer4Listener i st l)
  else if l.protocol = gs "TCP" then pure (handleLayer4Listener i st l)
  else if l.protocol = gs "UDP" then pure (handleLayer4Listener i st l)
  else pure st

/-! ## Controller route filter — `internal/controller/gateway.go` -/

/-- The `metav1.Object` view of an HTTP route. -/
def httpRouteObj (r : HTTPRoute) : RouteObject :=
  { namespc := r.namespc, name := r.name, kind := gs "HTTPRoute" }

/-- Source `internal/controller/gateway.go` `filterHTTPRoutesByGateway`:
keeps the routes that are attachable and allowed. -/
def filterHTTPRoutesByGateway (nsList : NamespaceListOracle) (gw : Gateway)
    (routes : List HTTPRoute) : List HTTPRoute :=
  routes.filter fun route =>
    isAttachable gw (httpRouteObj route) route.statusParents &&
    isAllowed nsList gw (httpRouteObj route)

/-! ## Programmer fan-out — `internal/controller/gateway.go` `Reconcile` -/

/-- An HTTP response from a data-plane admin endpoint. -/
structure HTTPResponse where
  statusCode : Nat
  body : GoString
deriving DecidableEq, Repr

/-- Outcome of one replica's programming task once a response arrived:
success (the body is drained) or a logged failure carrying the body read
for diagnosis. -/
inductive ReplicaOutcome where
  | success
  | failureLogged (body : GoString)
deriving DecidableEq, Repr

/-- Response handling of the per-replica goroutine in `Reconcile`
(source `internal/controller/gateway.go`): a response with status other
than `http.StatusOK` is reported as a failure with the body read;
otherwise the body is drained and the task succeeds. -/
def programReplicaResponse (res : HTTPResponse) : ReplicaOutcome :=
  if res.statusCode ≠ 200 then .failureLogged res.body else .success

/-- The fan-out over replicas: each response is classified independently
(the goroutines only share the wait group; one failure does not abort
the others). -/
def programReplicas (responses : List HTTPResponse) : List ReplicaOutcome :=
  responses.map programReplicaResponse

/-! ## Status reconciler — `internal/controller/gateway.go`,
`internal/routechecks/routes.go` -/

/-- A `gatewayv1.ListenerStatus`. -/
structure ListenerStatus where
  name : GoString
  supportedKinds : List GoString := []
  attachedRoutes : Int := 0
  conditions : List Condition := []
deriving DecidableEq, Repr

/-- A `gatewayv1.GatewayStatus` (addresses as type/value pairs). -/
structure GatewayStatus where
  addresses : List (GoString × GoString) := []
  conditions : List Condition := []
  listeners : List ListenerStatus := []
deriving DecidableEq, Repr

/-- The per-condition comparator of
`cmp.Equal(..., cmpopts.IgnoreFields(metav1.Condition{}, "LastTransitionTime"))`:
all fields but the transition time. -/
def condEqIgnoringLTT (a b : Condition) : Bool :=
  a.condType == b.condType && a.status == b.status && a.reason == b.reason &&
    a.message == b.message && a.observedGeneration == b.observedGeneration

/-- Pairwise comparison of condition lists under the ignore option. -/
def condsEqIgnoringLTT : List Condition → List Condition → Bool
  | [], [] => true
  | a :: as, b :: bs => condEqIgnoringLTT a b && condsEqIgnoringLTT as bs
  | _, _ => false

/-- Pairwise comparison of listener statuses under the ignore option. -/
def listenerStatusesEqIgnoringLTT : List ListenerStatus → List ListenerStatus → Bool
  | [], [] => true
  | a :: as, b :: bs =>
    a.name == b.name && a.supportedKinds == b.supportedKinds &&
      a.attachedRoutes == b.attachedRoutes && condsEqIgnoringLTT a.conditions b.conditions &&
      listenerStatusesEqIgnoringLTT as bs
  | _, _ => false

/-- The deep equality used by `updateStatus` (source
`internal/controller/gateway.go`): `cmp.Equal` of the two statuses with
every condition's `LastTransitionTime` ignored. -/
def gatewayStatusEqIgnoringLTT (a b : GatewayStatus) : Bool :=
  a.addresses == b.addresses && condsEqIgnoringLTT a.conditions b.conditions &&
    listenerStatusesEqIgnoringLTT a.listeners b.listeners

/-- Source `internal/controller/gateway.go` `updateStatus`: skips the
write when the statuses are `cmp.Equal` ignoring `LastTransitionTime`,
else issues a status-subresource update carrying the new status. -/
def updateStatus (old new : GatewayStatus) : Option GatewayStatus :=
  if gatewayStatusEqIgnoringLTT old new then none else some new

/-- Source `internal/routechecks/routes.go` `conditionChanged`: status,
reason, message or observed generation differ. -/
def conditionChanged (a b : Condition) : Bool :=
  a.status != b.status || a.reason != b.reason || a.message != b.message ||
    a.observedGeneration != b.observedGeneration

/-- In-place scan of `merge` (source `internal/routechecks/routes.go`)
for one update: the first existing condition of the update's type is
overwritten only when `conditionChanged`; reports whether a condition of
that type was found. -/
def mergeScan (update : Condition) : List Condition → List Condition × Bool
  | [] => ([], false)
  | c :: rest =>
    if c.condType = update.condType then
      ((if conditionChanged c update then
          { c with
            status := update.status
            reason := update.reason
            message := update.message
            observedGeneration := update.observedGeneration
            lastTransitionTime := update.lastTransitionTime }
        else c) :: rest, true)
    else
      let sr := mergeScan update rest
      (c :: sr.1, sr.2)

/-- Source `internal/routechecks/routes.go` `merge`: folds the updates
over the existing conditions and appends the updates whose type was not
present. -/
def mergeConditions (existing : List Condition) (updates : List Condition) : List Condition :=
  let folded := updates.foldl
    (fun (st : List Condition × List Condition) u =>
      let sr := mergeScan u st.1
      (sr.1, if sr.2 then st.2 else st.2 ++ [u]))
    (existing, [])
  folded.1 ++ folded.2

/-! ## Theorems -/

/-- C3: the reference-grant decision returns true iff the referencing
namespace equals the (defaulted) target namespace — allowed without
consulting grants — or some ReferenceGrant whose namespace equals the
target namespace carries a `from` entry matching the referencing
group/kind and namespace and a `to` entry matching the target group/kind
whose name is unset or equal to the target name; in every other case it
returns false (the function is total: it never fails). -/
theorem isReferenceAllowed_iff (originatingNamespace name : GoString) (namespc : OptNS)
    (fromGVK toGVK : GVK) (grants : List ReferenceGrant) :
    isReferenceAllowed originatingNamespace name namespc fromGVK toGVK grants = true ↔
      (originatingNamespace = namespaceDerefOr namespc originatingNamespace ∨
        ∃ g ∈ grants, g.namespc = namespaceDerefOr namespc originatingNamespace ∧
          (∃ fr ∈ g.fromRefs, fr.group = fromGVK.group ∧ fr.kind = fromGVK.kind ∧
            fr.namespc = originatingNamespace) ∧
          (∃ t ∈ g.toRefs, t.group = toGVK.group ∧ t.kind = toGVK.kind ∧
            (t.name = none ∨ t.name = some name))) := by
  unfold isReferenceAllowed
  by_cases h : originatingNamespace = namespaceDerefOr namespc originatingNamespace
  · rw [if_pos h]
    exact ⟨fun _ => Or.inl h, fun _ => rfl⟩
  · rw [if_neg h]
    simp only [List.any_eq_true, Bool.and_eq_true, beq_iff_eq, Bool.or_eq_true]
    constructor
    · rintro ⟨g, hg, hns, fr, hfr, ⟨⟨h1, h2⟩, h3⟩, t, ht, ⟨⟨h4, h5⟩, h6⟩⟩
      exact Or.inr ⟨g, hg, hns, ⟨fr, hfr, h1, h2, h3⟩, ⟨t, ht, h4, h5, h6⟩⟩
    · rintro (hc | ⟨g, hg, hns, ⟨fr, hfr, h1, h2, h3⟩, t, ht, h4, h5, h6⟩)
      · exact absurd hc h
      · exact ⟨g, hg, hns, fr, hfr, ⟨⟨h1, h2⟩, h3⟩, t, ht, ⟨⟨h4, h5⟩, h6⟩⟩

/-! ### Hostname wildcard lemmas -/

theorem goHasPrefix_iff (s pre : GoString) : goHasPrefix s pre = true ↔ pre <+: s := by
  simp [goHasPrefix, List.isPrefixOf_iff_prefix]

theorem goHasSuffix_iff (s t : GoString) : goHasSuffix s t = true ↔ t <:+ s := by
  simp [goHasSuffix, List.isSuffixOf_iff_suffix]

theorem goTrimSuffix_append (p t : GoString) : goTrimSuffix (p ++ t) t = p := by
  have hs : goHasSuffix (p ++ t) t = true := (goHasSuffix_iff _ _).mpr ⟨p, rfl⟩
  simp only [goTrimSuffix, hs, if_true]
  have hlen : (p ++ t).length - t.length = p.length := by
    simp [List.length_append]
  rw [hlen, List.take_left]

theorem goTrimPrefix_star (rest : GoString) :
    goTrimPrefix ('*' :: rest) (gs "*") = rest := by
  have hp : goHasPrefix ('*' :: rest) (gs "*") = true :=
    (goHasPrefix_iff _ _).mpr ⟨rest, rfl⟩
  simp only [goTrimPrefix, hp, if_true]
  rfl

theorem hostnameMatchesWildcardHostname_iff (h rest : GoString) :
    hostnameMatchesWildcardHostname h ('*' :: rest) = true ↔
      ∃ p, p ≠ [] ∧ h = p ++ rest := by
  simp only [hostnameMatchesWildcardHostname, goTrimPrefix_star]
  by_cases hs : goHasSuffix h rest = true
  · obtain ⟨p, hp⟩ := (goHasSuffix_iff _ _).mp hs
    subst hp
    rw [if_neg (by simp [hs]), goTrimSuffix_append]
    simp only [decide_eq_true_eq]
    constructor
    · intro hlen
      exact ⟨p, by simpa [List.length_pos] using hlen, rfl⟩
    · rintro ⟨q, hq, heq⟩
      have hqp : q = p := List.append_cancel_right heq.symm
      subst hqp
      exact List.length_pos.mpr hq
  · rw [if_pos (by simpa using hs)]
    simp only [Bool.false_eq_true, false_iff]
    rintro ⟨p, _, heq⟩
    exact hs ((goHasSuffix_iff _ _).mpr ⟨p, heq.symm⟩)

/-- Unfolding of `ComputeHosts` for one route hostname against a
non-empty listener hostname. -/
theorem computeHosts_singleton (h lhv : GoString) (hne : lhv ≠ []) :
    computeHosts [h] (some lhv) =
      sortStrings (
        if lhv = h then [h]
        else if goHasPrefix lhv (gs "*") = true then
          (if hostnameMatchesWildcardHostname h lhv = true then [h] else [])
        else if goHasPrefix h (gs "*") = true then
          (if hostnameMatchesWildcardHostname lhv h = true then [lhv] else [])
        else []) := by
  have hl : ¬lhv.length = 0 := by simpa [List.length_eq_zero] using hne
  unfold computeHosts
  rw [if_neg (by simp)]
  simp only [List.foldl_cons, List.foldl_nil, hl, if_false, List.nil_append]

/-- C5: in `ComputeHosts`, when the listener hostname has a leading
`*.`, a route hostname is included iff it ends with the listener's
suffix (the hostname after the `*`) and has a non-empty remainder
(at least one extra label) before it; the bare `example.com` is never
matched by `*.example.com`; and for a route-side wildcard the listener
hostname is included under the same rule. -/
theorem computeHosts_wildcard (rest h lst : GoString) :
    (h ∈ computeHosts [h] (some (gs "*." ++ rest)) ↔
      ∃ p, p ≠ [] ∧ h = p ++ (gs "." ++ rest)) ∧
    (gs "example.com" ∉ computeHosts [gs "example.com"] (some (gs "*.example.com"))) ∧
    (lst ≠ [] → goHasPrefix lst (gs "*") = false → lst ≠ gs "*." ++ rest →
      (lst ∈ computeHosts [gs "*." ++ rest] (some lst) ↔
        ∃ p, p ≠ [] ∧ lst = p ++ (gs "." ++ rest))) := by
  have hcast : gs "*." ++ rest = ('*' :: ('.' :: rest)) := rfl
  have hpath : gs "." ++ rest = ('.' :: rest) := rfl
  have hwild : goHasPrefix (gs "*." ++ rest) (gs "*") = true :=
    (goHasPrefix_iff _ _).mpr ⟨'.' :: rest, by rw [hcast]; rfl⟩
  refine ⟨?_, by decide, ?_⟩
  · have hne : gs "*." ++ rest ≠ [] := by rw [hcast]; simp
    rw [computeHosts_singleton h (gs "*." ++ rest) hne]
    rw [hpath]
    have hmatch := hostnameMatchesWildcardHostname_iff h ('.' :: rest)
    rw [← hcast] at hmatch
    by_cases heq : gs "*." ++ rest = h
    · rw [if_pos heq, mem_sortStrings]
      constructor
      · intro _
        exact ⟨gs "*", by decide, by rw [← heq]; rfl⟩
      · intro _
        exact List.mem_singleton.mpr rfl
    · rw [if_neg heq, if_pos hwild, mem_sortStrings]
      by_cases hw : hostnameMatchesWildcardHostname h (gs "*." ++ rest) = true
      · rw [if_pos hw]
        exact ⟨fun _ => hmatch.mp hw, fun _ => List.mem_singleton.mpr rfl⟩
      · rw [if_neg hw]
        simp only [List.not_mem_nil, false_iff]
        intro hex
        exact hw (hmatch.mpr hex)
  · intro hne hpre hneq
    rw [computeHosts_singleton (gs "*." ++ rest) lst hne, hpath]
    have hmatch := hostnameMatchesWildcardHostname_iff lst ('.' :: rest)
    rw [← hcast] at hmatch
    have hneq2 : lst ≠ gs "*." ++ rest := hneq
    rw [if_neg hneq2, if_neg (by simp [hpre]), if_pos hwild, mem_sortStrings]
    by_cases hw : hostnameMatchesWildcardHostname lst (gs "*." ++ rest) = true
    · rw [if_pos hw]
      exact ⟨fun _ => hmatch.mp hw, fun _ => List.mem_singleton.mpr rfl⟩
    · rw [if_neg hw]
      simp only [List.not_mem_nil, false_iff]
      intro hex
      exact hw (hmatch.mpr hex)

/-- Witness for C5 at `*.example.com`: `api.example.com` is matched on
both the listener-wildcard and the route-wildcard side, while the bare
`example.com` is not. -/
theorem computeHosts_wildcard_witness :
    (gs "api.example.com" ∈
      computeHosts [gs "api.example.com"] (some (gs "*." ++ gs "example.com"))) ∧
    (gs "example.com" ∉ computeHosts [gs "example.com"] (some (gs "*.example.com"))) ∧
    (gs "api.example.com" ∈
      computeHosts [gs "*." ++ gs "example.com"] (some (gs "api.example.com"))) := by
  have t := computeHosts_wildcard (gs "example.com") (gs "api.example.com") (gs "api.example.com")
  exact ⟨t.1.mpr ⟨gs "api", by decide, by decide⟩, t.2.1,
    (t.2.2 (by decide) (by decide) (by decide)).mpr ⟨gs "api", by decide, by decide⟩⟩

/-- C2: a route is treated as attached — and so participates in
synthesis — only if at least one recorded parent status targets the
Gateway (namespace defaulted by the route's namespace, name equal to the
Gateway's name) and carries a condition `Accepted=True` or
`ResolvedRefs=False`; with no such entry the route is excluded (the
filter keeps only attachable routes). -/
theorem isAttachable_iff_and_filter (gw : Gateway) (route : RouteObject)
    (parents : List RouteParentStatus) (nsList : NamespaceListOracle)
    (routes : List HTTPRoute) :
    (isAttachable gw route parents = true ↔
      ∃ rps ∈ parents,
        namespaceDerefOr rps.parentRef.namespc route.namespc = gw.namespc ∧
        rps.parentRef.name = gw.name ∧
        ∃ c ∈ rps.conditions,
          (c.condType = gs "Accepted" ∧ c.status = gs "True") ∨
          (c.condType = gs "ResolvedRefs" ∧ c.status = gs "False")) ∧
    (∀ r ∈ filterHTTPRoutesByGateway nsList gw routes,
      isAttachable gw (httpRouteObj r) r.statusParents = true) := by
  constructor
  · simp only [isAttachable, List.any_eq_true, Bool.and_eq_true, Bool.or_eq_true, beq_iff_eq]
    constructor
    · rintro ⟨rps, hmem, ⟨⟨h1, h2⟩, c, hc, hdisj⟩⟩
      exact ⟨rps, hmem, h1, h2, c, hc, hdisj⟩
    · rintro ⟨rps, hmem, h1, h2, c, hc, hdisj⟩
      exact ⟨rps, hmem, ⟨⟨h1, h2⟩, c, hc, hdisj⟩⟩
  · intro r hr
    have hm := List.mem_filter.mp hr
    have h2 := hm.2
    simp only [Bool.and_eq_true] at h2
    exact h2.1

/-- Witness for C2: a route whose only parent status carries
`ResolvedRefs=False` is attachable and survives the filter. -/
theorem isAttachable_witness :
    isAttachable ⟨gs "default", gs "gw", [⟨gs "l", 80, gs "HTTP", none, none, none⟩]⟩
      ⟨gs "default", gs "r", gs "HTTPRoute"⟩
      [⟨⟨none, none, none, gs "gw", none, none⟩,
        gs "caddyserver.com/gateway-controller",
        [⟨gs "ResolvedRefs", gs "False", gs "RefNotPermitted", [], 0, 0⟩]⟩] = true ∧
    isAttachable ⟨gs "default", gs "gw", [⟨gs "l", 80, gs "HTTP", none, none, none⟩]⟩
      (httpRouteObj ⟨gs "default", gs "r", [], [],
        [⟨⟨none, none, none, gs "gw", none, none⟩,
          gs "caddyserver.com/gateway-controller",
          [⟨gs "ResolvedRefs", gs "False", gs "RefNotPermitted", [], 0, 0⟩]⟩]⟩)
      [⟨⟨none, none, none, gs "gw", none, none⟩,
        gs "caddyserver.com/gateway-controller",
        [⟨gs "ResolvedRefs", gs "False", gs "RefNotPermitted", [], 0, 0⟩]⟩] = true := by
  have t := isAttachable_iff_and_filter
    ⟨gs "default", gs "gw", [⟨gs "l", 80, gs "HTTP", none, none, none⟩]⟩
    ⟨gs "default", gs "r", gs "HTTPRoute"⟩
    [⟨⟨none, none, none, gs "gw", none, none⟩,
      gs "caddyserver.com/gateway-controller",
      [⟨gs "ResolvedRefs", gs "False", gs "RefNotPermitted", [], 0, 0⟩]⟩]
    (fun _ => none)
    [⟨gs "default", gs "r", [], [],
      [⟨⟨none, none, none, gs "gw", none, none⟩,
        gs "caddyserver.com/gateway-controller",
        [⟨gs "ResolvedRefs", gs "False", gs "RefNotPermitted", [], 0, 0⟩]⟩]⟩]
  refine ⟨t.1.mpr (by decide), ?_⟩
  exact t.2 _ (by decide)

/-- C10: whenever the first listener of the Gateway leaves
`allowedRoutes` (or its `namespaces`) unset, `isAllowed` decides the
whole Gateway immediately by namespace equality, so a later listener
(even with `From=All` or a matching selector) can never admit a
cross-namespace route. -/
theorem isAllowed_first_listener (nsList : NamespaceListOracle) (gw : Gateway)
    (route : RouteObject) (l : Listener) (rest : List Listener)
    (hl : gw.listeners = l :: rest)
    (har : l.allowedRoutes = none ∨
      ∃ ar, l.allowedRoutes = some ar ∧ ar.namespaces = none) :
    isAllowed nsList gw route = (route.namespc == gw.namespc) := by
  unfold isAllowed
  rw [hl]
  rcases har with h | ⟨ar, h, h2⟩
  · simp [isAllowedLoop, h]
  · simp [isAllowedLoop, h, h2]

/-- Witness for C10: the first listener has no `allowedRoutes`, the
second allows all namespaces, yet a cross-namespace route is refused. -/
theorem isAllowed_first_listener_witness :
    isAllowed (fun _ => none)
      ⟨gs "ns1", gs "gw",
        [⟨gs "l1", 80, gs "HTTP", none, none, none⟩,
         ⟨gs "l2", 443, gs "HTTP", none, none, some ⟨some ⟨gs "All", none⟩, none⟩⟩]⟩
      ⟨gs "ns2", gs "r", gs "HTTPRoute"⟩ = false := by
  have t := isAllowed_first_listener (fun _ => none)
    ⟨gs "ns1", gs "gw",
      [⟨gs "l1", 80, gs "HTTP", none, none, none⟩,
       ⟨gs "l2", 443, gs "HTTP", none, none, some ⟨some ⟨gs "All", none⟩, none⟩⟩]⟩
    ⟨gs "ns2", gs "r", gs "HTTPRoute"⟩
    ⟨gs "l1", 80, gs "HTTP", none, none, none⟩
    [⟨gs "l2", 443, gs "HTTP", none, none, some ⟨some ⟨gs "All", none⟩, none⟩⟩]
    rfl (Or.inl rfl)
  rw [t]
  decide

/-- Counterexample to C7 as stated: the 2xx response 204 is reported as
a failure (with the body read), not treated as success. -/
theorem programReplica_204_counterexample :
    programReplicaResponse ⟨204, gs "diagnostic"⟩ = .failureLogged (gs "diagnostic") ∧
    200 ≤ 204 ∧ 204 < 300 := by
  exact ⟨rfl, by decide, by decide⟩

/-- C7 (amended): a per-replica response is treated as success iff its
status is exactly 200 (`http.StatusOK`), not any 2xx; every other status
is reported as a failure with the body read for diagnosis; replicas are
classified independently, so one failure does not affect the others'
outcomes. -/
theorem programReplicas_only_200 (res : HTTPResponse) (responses : List HTTPResponse)
    (k : Nat) :
    (programReplicaResponse res = .success ↔ res.statusCode = 200) ∧
    (res.statusCode ≠ 200 → programReplicaResponse res = .failureLogged res.body) ∧
    (programReplicas responses)[k]? = (responses[k]?).map programReplicaResponse := by
  refine ⟨?_, ?_, ?_⟩
  · unfold programReplicaResponse
    by_cases h : res.statusCode = 200
    · simp [h]
    · simp [h]
  · intro h
    simp [programReplicaResponse, h]
  · simp [programReplicas, List.getElem?_map]

/-- Witness for C7 at a 500 response within a two-replica fan-out. -/
theorem programReplicas_only_200_witness :
    programReplicaResponse ⟨500, gs "oops"⟩ = .failureLogged (gs "oops") ∧
    (programReplicas [⟨200, []⟩, ⟨500, gs "oops"⟩])[1]? =
      some (.failureLogged (gs "oops")) := by
  have t := programReplicas_only_200 ⟨500, gs "oops"⟩ [⟨200, []⟩, ⟨500, gs "oops"⟩] 1
  refine ⟨t.2.1 (by decide), ?_⟩
  rw [t.2.2]
  decide

/-- The (header, header-regexp, query) fields of a matcher, bundled for
the preservation lemmas below. -/
def hdrq (mt : HTTPMatch) :
    Option (List (GoString × List GoString)) × Option (List (GoString × MatchRegexp)) ×
      Option (List (GoString × List GoString)) :=
  (mt.header, mt.headerRE, mt.query)

theorem getPathMatcher_hdrq (mt : HTTPMatch) (p : Option HTTPPathMatch) :
    hdrq (getPathMatcher mt p) = hdrq mt := by
  unfold getPathMatcher
  repeat' split
  all_goals simp only []
  repeat' split
  all_goals rfl

theorem getMethodMatcher_hdrq (mt : HTTPMatch) (m : Option GoString) :
    hdrq (getMethodMatcher mt m) = hdrq mt := by
  unfold getMethodMatcher
  repeat' split
  all_goals rfl

theorem buildMatchStep_hdrq (mt : HTTPMatch) (m : HTTPRouteMatch) :
    hdrq (buildMatchStep mt m) = hdrq mt := by
  unfold buildMatchStep
  simp only [getHeaderMatcher, getQueryMatcher]
  rcases m.path with _ | pm <;> rcases m.headers with _ | hs <;>
    rcases m.queryParams with _ | qs <;> rcases m.method with _ | mm <;>
    first
      | rfl
      | exact getMethodMatcher_hdrq mt (some mm)
      | exact getPathMatcher_hdrq mt (some pm)

theorem buildRuleMatcher_fold (terms : List HTTPRouteMatch) :
    ∀ mt : HTTPMatch, hdrq (terms.foldl buildMatchStep mt) = hdrq mt := by
  induction terms with
  | nil => intro mt; rfl
  | cons t ts ih =>
    intro mt
    simp only [List.foldl_cons]
    exact (ih (buildMatchStep mt t)).trans (buildMatchStep_hdrq mt t)

/-- Counterexample to C6 as stated: a rule match specifying a header
match and a query-parameter match yields a matcher carrying no header
and no query entries at all (so the verbatim key→value lists are
absent). -/
theorem buildRuleMatcher_counterexample :
    (buildRuleMatcher [⟨none, some [⟨none, gs "X-Api-Key", gs "secret"⟩],
        some [⟨none, gs "tenant", gs "acme"⟩], none⟩]).header = none ∧
    (buildRuleMatcher [⟨none, some [⟨none, gs "X-Api-Key", gs "secret"⟩],
        some [⟨none, gs "tenant", gs "acme"⟩], none⟩]).query = none ∧
    (buildRuleMatcher [⟨none, some [⟨none, gs "X-Api-Key", gs "secret"⟩],
        some [⟨none, gs "tenant", gs "acme"⟩], none⟩]).headerRE = none := by
  exact ⟨rfl, rfl, rfl⟩

/-- C6 (amended): header and query-parameter matches are ignored by the
synthesizer — `getHeaderMatcher` and `getQueryMatcher` are unimplemented
stubs that return the matcher unchanged — so the synthesized rule
matcher never carries header, header-regexp or query entries. -/
theorem buildRuleMatcher_ignores_header_query (terms : List HTTPRouteMatch)
    (mt : HTTPMatch) (v : Option (List HTTPHeaderMatch))
    (w : Option (List HTTPQueryParamMatch)) :
    (buildRuleMatcher terms).header = none ∧
    (buildRuleMatcher terms).headerRE = none ∧
    (buildRuleMatcher terms).query = none ∧
    getHeaderMatcher mt v = mt ∧
    getQueryMatcher mt w = mt := by
  have h := buildRuleMatcher_fold terms {}
  simp only [hdrq, Prod.mk.injEq] at h
  exact ⟨h.1, h.2.1, h.2.2, rfl, rfl⟩

/-- Sample Service for the C8 theorems. -/
def c8Service : Service :=
  { namespc := gs "default", name := gs "svc", clusterIP := gs "10.0.0.2",
    ports := [{ port := 6443, appProtocol := none }] }

/-- Sample backend ref for the C8 theorems. -/
def c8Backend : BackendRef :=
  { bor := { group := none, kind := none, name := gs "svc", namespc := none,
             port := some 6443 } }

/-- Sample synthesizer input for the C8 theorems. -/
def c8Input : Input :=
  { gateway := ⟨gs "default", gs "gw", []⟩
    services := [c8Service]
    secretGet := fun _ _ => .error []
    configMapGet := fun _ _ => .error []
    pemDecodeAll := fun _ => []
    base64enc := fun b => b }

/-- Counterexample to C8 as stated: a TLS passthrough route whose rule
has two backend refs produces a route with no handlers at all — the
first backend is not proxied — while the same backend alone is. -/
theorem l4_two_backends_counterexample :
    (tlsRouteToL4Route c8Input
      ⟨gs "l", 443, gs "TLS", none, some ⟨some (gs "Passthrough"), []⟩, none⟩
      ⟨gs "default", gs "tr", [gs "api.example.com"], [⟨[c8Backend, c8Backend]⟩],
        []⟩).handlers = [] ∧
    (⟨[c8Backend, c8Backend]⟩ : L4RouteRule).backendRefs.length = 2 ∧
    tlsRuleProxyHandler [c8Service] (gs "default") ⟨[c8Backend]⟩ =
      some (.l4proxy [gs "10.0.0.2:6443"]) := by
  refine ⟨by decide, by decide, by decide⟩

/-- C8 (amended): a Layer-4 rule is proxied only when it has exactly one
backend ref. A rule with zero or several backend refs is skipped
entirely — no proxy handler is emitted, not even for the first backend.
A rule with a single Service backend carrying a port and resolving to an
existing Service yields one L4 proxy handler dialing `<ClusterIP>:<port>`
(prefixed `udp/` for UDP); backend weights are never read. -/
theorem l4Rule_single_backend (services : List Service) (routeNS : GoString)
    (rule : L4RouteRule) :
    (rule.backendRefs.length ≠ 1 →
      tlsRuleProxyHandler services routeNS rule = none ∧
      udpRuleProxyHandler services routeNS rule = none ∧
      tcpRuleProxyHandler services routeNS rule = none) ∧
    (∀ bf, rule.backendRefs = [bf] → isService bf.bor = true →
      ∀ port, bf.bor.port = some port →
      ∀ service,
        findService services (namespaceDerefOr bf.bor.namespc routeNS) bf.bor.name =
          some service →
        tlsRuleProxyHandler services routeNS rule =
          some (.l4proxy [goJoinHostPort service.clusterIP (goItoa port)]) ∧
        udpRuleProxyHandler services routeNS rule =
          some (.l4proxy [gs "udp/" ++ goJoinHostPort service.clusterIP (goItoa port)])) := by
  constructor
  · intro hlen
    rcases hrule : rule.backendRefs with _ | ⟨bf, rest⟩
    · exact ⟨by simp [tlsRuleProxyHandler, hrule],
        by simp [udpRuleProxyHandler, hrule],
        by simp [tcpRuleProxyHandler, hrule]⟩
    · rcases rest with _ | ⟨bf2, rest2⟩
      · exact absurd (by rw [hrule]; rfl) hlen
      · exact ⟨by simp [tlsRuleProxyHandler, hrule],
          by simp [udpRuleProxyHandler, hrule],
          by simp [tcpRuleProxyHandler, hrule]⟩
  · intro bf hrule hsvc port hport service hfind
    constructor
    · simp [tlsRuleProxyHandler, hrule, hsvc, hport, hfind]
    · simp [udpRuleProxyHandler, hrule, hsvc, hport, hfind]

/-- Witness for C8: a two-ref rule yields no handler while the same
single backend is proxied on the TLS and UDP paths. -/
theorem l4Rule_single_backend_witness :
    tlsRuleProxyHandler [c8Service] (gs "default") ⟨[c8Backend, c8Backend]⟩ = none ∧
    tlsRuleProxyHandler [c8Service] (gs "default") ⟨[c8Backend]⟩ =
      some (.l4proxy [gs "10.0.0.2:6443"]) ∧
    udpRuleProxyHandler [c8Service] (gs "default") ⟨[c8Backend]⟩ =
      some (.l4proxy [gs "udp/10.0.0.2:6443"]) := by
  have t1 := l4Rule_single_backend [c8Service] (gs "default") ⟨[c8Backend, c8Backend]⟩
  have t2 := l4Rule_single_backend [c8Service] (gs "default") ⟨[c8Backend]⟩
  have h := t2.2 c8Backend rfl (by decide) 6443 rfl c8Service (by decide)
  refine ⟨(t1.1 (by decide)).1, ?_, ?_⟩
  · rw [h.1]; decide
  · rw [h.2]; decide

/-- The Location header described by the amended C4 claim, composed
from its words: scheme (explicit, else the scheme placeholder), `://`,
hostname (explicit, else the host placeholder), a port segment omitted
exactly for http/80 and https/443 — where the port is the explicit
non-zero port when a scheme is given (else inferred http→80, https→443,
other→listener port), and always the listener port when no scheme is
given (an explicit port is ignored) — and a path segment that is the
explicit full-replace path normalized to a leading `/`, empty for any
other present path modifier, and the URI placeholder when no path
modifier is present. -/
def amendedRedirectLocation (v : RequestRedirect) (listenerPort : Nat) : GoString :=
  let scheme := match v.scheme with
    | some s => s
    | none => gs "{http.request.scheme}"
  let port : Nat := match v.scheme with
    | none => listenerPort
    | some s =>
      match v.port with
      | some p =>
        if p ≠ 0 then p
        else if s = gs "http" then 80
        else if s = gs "https" then 443
        else listenerPort
      | none =>
        if s = gs "http" then 80
        else if s = gs "https" then 443
        else listenerPort
  let host := match v.hostname with
    | some h => h
    | none => gs "{http.request.host}"
  let portSeg : GoString :=
    if (scheme = gs "http" ∧ port = 80) ∨ (scheme = gs "https" ∧ port = 443) then []
    else gs ":" ++ goItoa port
  let pathSeg : GoString := match v.path with
    | none => gs "{http.request.uri}"
    | some p =>
      if p.modType = gs "ReplaceFullPath" then
        match p.replaceFullPath with
        | some q => if goHasPrefix q (gs "/") then q else gs "/" ++ q
        | none => []
      else []
  scheme ++ gs "://" ++ host ++ portSeg ++ pathSeg

/-- Counterexample to C4 as stated: a redirect whose path modifier is a
prefix match appends neither the path nor the URI placeholder to the
Location, and a redirect with an explicit port but no scheme ignores the
explicit port in favor of the listener port. -/
theorem redirect_claim_counterexample :
    redirectLocation
      ⟨some (gs "https"), none,
        some ⟨gs "ReplacePrefixMatch", none, some (gs "/x")⟩, none, none⟩ 80 =
      gs "https://{http.request.host}" ∧
    (gs "https://{http.request.host}" : GoString) ≠
      gs "https://{http.request.host}{http.request.uri}" ∧
    redirectLocation ⟨none, none, none, some 8443, none⟩ 80 =
      gs "{http.request.scheme}://{http.request.host}:80{http.request.uri}" ∧
    (gs "{http.request.scheme}://{http.request.host}:80{http.request.uri}" : GoString) ≠
      gs "{http.request.scheme}://{http.request.host}:8443{http.request.uri}" := by
  refine ⟨by decide, by decide, by decide, by decide⟩

/-- C4 (amended): the RequestRedirect filter emits a static response
whose status code defaults to 302, whose Location header is the string
described by `amendedRedirectLocation`, and the enclosing route is
marked terminal; in particular a redirect with only scheme `https`
yields status 302 and `Location: https://{http.request.host}{http.request.uri}`. -/
theorem redirect_filter_amended (v : RequestRedirect) (lp : Nat) (matcher : HTTPMatch)
    (st : List HTTPHandler × Bool) (f : HTTPRouteFilter) :
    redirectLocation v lp = amendedRedirectLocation v lp ∧
    (v.statusCode = none → redirectStatusCode v = 302) ∧
    redirectHandler v lp =
      .staticResponse (goItoa (redirectStatusCode v))
        [(gs "Location", [redirectLocation v lp])] [] false ∧
    (f.filterType = gs "RequestRedirect" → f.requestRedirect = some v →
      applyFilter lp matcher st f = (st.1 ++ [redirectHandler v lp], true)) ∧
    redirectLocation ⟨some (gs "https"), none, none, none, none⟩ lp =
      gs "https://{http.request.host}{http.request.uri}" ∧
    redirectStatusCode ⟨some (gs "https"), none, none, none, none⟩ = 302 := by
  refine ⟨?_, ?_, ?_, ?_, rfl, rfl⟩
  · unfold redirectLocation amendedRedirectLocation redirectSchemePort
    rcases v with ⟨vs, vh, vp, vport, vsc⟩
    rcases vs with _ | s <;> rcases vport with _ | p <;> rcases vp with _ | pm <;>
      simp only [] <;> split_ifs <;>
      first
        | rfl
        | (rcases pm.replaceFullPath with _ | q <;> simp_all [List.append_assoc])
        | simp_all [List.append_assoc]
  · intro h
    simp [redirectStatusCode, h]
  · have hcanon : canonicalMIMEKey (gs "Location") = gs "Location" := by decide
    unfold redirectHandler
    rw [hcanon]
  · intro hft hrr
    unfold applyFilter
    rw [hft]
    rw [if_neg (by decide), if_neg (by decide), if_pos rfl, hrr]

/-- Witness for C4 at a redirect with only scheme `https` inside a
filter list at listener port 80. -/
theorem redirect_filter_amended_witness :
    redirectLocation ⟨some (gs "https"), none, none, none, none⟩ 80 =
      gs "https://{http.request.host}{http.request.uri}" ∧
    redirectStatusCode ⟨some (gs "https"), none, none, none, none⟩ = 302 ∧
    applyFilter 80 {} ([], false)
      ⟨gs "RequestRedirect", none, none,
        some ⟨some (gs "https"), none, none, none, none⟩, none, none, none, none⟩ =
      ([redirectHandler ⟨some (gs "https"), none, none, none, none⟩ 80], true) := by
  have t := redirect_filter_amended ⟨some (gs "https"), none, none, none, none⟩ 80 {}
    ([], false)
    ⟨gs "RequestRedirect", none, none,
      some ⟨some (gs "https"), none, none, none, none⟩, none, none, none, none⟩
  exact ⟨t.2.2.2.2.1, t.2.1 rfl, t.2.2.2.1 rfl rfl⟩

/-- Sample synthesizer input for the C1 theorems. -/
def c1Input : Input :=
  { gateway := ⟨gs "default", gs "gw", []⟩
    tlsRoutes := [⟨gs "default", gs "tr", [gs "api.example.com"], [], []⟩]
    secretGet := fun _ _ => .error []
    configMapGet := fun _ _ => .error []
    pemDecodeAll := fun _ => []
    base64enc := fun b => b }

/-- Counterexample to C1 as stated: a raw TLS listener on port 443 is
stored under the Layer-4 key `tcp/443`, not `tls/443`, and an HTTPS
listener with TLS mode Passthrough is ignored entirely (the state is
unchanged, so no Layer-4 server is created for it). -/
theorem handleListener_key_counterexample :
    handleListener c1Input {}
      ⟨gs "tls-l", 443, gs "TLS", none, some ⟨some (gs "Passthrough"), []⟩, none⟩ =
      .ok (handleLayer4Listener c1Input {}
        ⟨gs "tls-l", 443, gs "TLS", none, some ⟨some (gs "Passthrough"), []⟩, none⟩) ∧
    (mapLookup (handleLayer4Listener c1Input {}
      ⟨gs "tls-l", 443, gs "TLS", none, some ⟨some (gs "Passthrough"), []⟩,
        none⟩).l4Servers (gs "tls/443")).isNone = true ∧
    (mapLookup (handleLayer4Listener c1Input {}
      ⟨gs "tls-l", 443, gs "TLS", none, some ⟨some (gs "Passthrough"), []⟩,
        none⟩).l4Servers (gs "tcp/443")).isSome = true ∧
    handleListener c1Input {}
      ⟨gs "https-l", 443, gs "HTTPS", none, some ⟨some (gs "Passthrough"), []⟩, none⟩ =
      .ok {} := by
  refine ⟨rfl, by decide, by decide, rfl⟩

/-- C1 (amended): a TLS-protocol listener creates or extends the Layer-4
server under key `"tcp/<port>"` via the TLS builder (whose routes carry
a TLS SNI matcher whenever the attached TLS route has hostnames); a TCP
listener maps to `"tcp/<port>"` and a UDP listener to `"udp/<port>"`;
an HTTPS listener with a non-Terminate TLS mode is ignored and produces
no server at all. -/
theorem handleListener_layer4_amended (i : Input) (st : SynthState) (l : Listener) :
    (l.protocol = gs "TLS" →
      handleListener i st l = .ok
        { st with
          l4Servers := mapInsert st.l4Servers (gs "tcp/" ++ goItoa l.port)
            (getTLSServer i
              ((mapLookup st.l4Servers (gs "tcp/" ++ goItoa l.port)).getD
                { listen := [gs "tcp/:" ++ goItoa l.port] }) l) }) ∧
    (l.protocol = gs "TCP" →
      handleListener i st l = .ok
        { st with
          l4Servers := mapInsert st.l4Servers (gs "tcp/" ++ goItoa l.port)
            (getTCPServer i
              ((mapLookup st.l4Servers (gs "tcp/" ++ goItoa l.port)).getD
                { listen := [gs "tcp/:" ++ goItoa l.port] }) l) }) ∧
    (l.protocol = gs "UDP" →
      handleListener i st l = .ok
        { st with
          l4Servers := mapInsert st.l4Servers (gs "udp/" ++ goItoa l.port)
            (getUDPServer i
              ((mapLookup st.l4Servers (gs "udp/" ++ goItoa l.port)).getD
                { listen := [gs "udp/:" ++ goItoa l.port] }) l) }) ∧
    (∀ t m, l.protocol = gs "HTTPS" → l.tls = some t → t.mode = some m →
      m ≠ gs "Terminate" → handleListener i st l = .ok st) ∧
    (∀ tr : TLSRoute, tr.hostnames ≠ [] →
      (tlsRouteToL4Route i l tr).matcherSets = [{ tlsSNI := some tr.hostnames }]) := by
  refine ⟨?_, ?_, ?_, ?_, ?_⟩
  · intro hp
    unfold handleListener handleLayer4Listener
    rw [hp]
    with_unfolding_all rfl
  · intro hp
    unfold handleListener handleLayer4Listener
    rw [hp]
    with_unfolding_all rfl
  · intro hp
    unfold handleListener handleLayer4Listener
    rw [hp]
    with_unfolding_all rfl
  · intro t m hp htls hmode hne
    unfold handleListener
    have e1 : (gs "HTTPS" = gs "HTTP") = False := eq_false (by decide)
    have e2 : (gs "HTTPS" = gs "HTTPS") = True := eq_true rfl
    simp only [hp, e1, e2, if_false, if_true, htls, hmode]
    rw [if_pos hne]
    rfl
  · intro tr htr
    show (if tr.hostnames.length > 0 then [({ tlsSNI := some tr.hostnames } : L4Match)]
      else []) = _
    rw [if_pos (List.length_pos.mpr htr)]

/-- Witness for C1: a raw TLS listener at 443 lands on key `tcp/443`,
and a TLS route with a hostname carries an SNI matcher. -/
theorem handleListener_layer4_amended_witness :
    handleListener c1Input {}
      ⟨gs "tls-l", 443, gs "TLS", none, some ⟨some (gs "Passthrough"), []⟩, none⟩ =
      .ok { l4Servers := [(gs "tcp/443",
        getTLSServer c1Input { listen := [gs "tcp/:443"] }
          ⟨gs "tls-l", 443, gs "TLS", none, some ⟨some (gs "Passthrough"), []⟩, none⟩)] } ∧
    (tlsRouteToL4Route c1Input
      ⟨gs "tls-l", 443, gs "TLS", none, some ⟨some (gs "Passthrough"), []⟩, none⟩
      ⟨gs "default", gs "tr", [gs "api.example.com"], [], []⟩).matcherSets =
      [{ tlsSNI := some [gs "api.example.com"] }] := by
  have t := handleListener_layer4_amended c1Input {}
    ⟨gs "tls-l", 443, gs "TLS", none, some ⟨some (gs "Passthrough"), []⟩, none⟩
  exact ⟨t.1 rfl, t.2.2.2.2 ⟨gs "default", gs "tr", [gs "api.example.com"], [], []⟩
    (by decide)⟩

/-- Spec-side erasure for C9: a condition with its `lastTransitionTime`
zeroed, so that "deep-equal ignoring LastTransitionTime" reads as
equality after erasure. -/
def scrubCond (c : Condition) : Condition := { c with lastTransitionTime := 0 }

/-- Spec-side erasure of every condition in a listener status. -/
def scrubListenerStatus (ls : ListenerStatus) : ListenerStatus :=
  { ls with conditions := ls.conditions.map scrubCond }

/-- Spec-side erasure of every condition in a Gateway status. -/
def scrubStatus (s : GatewayStatus) : GatewayStatus :=
  { s with
    conditions := s.conditions.map scrubCond
    listeners := s.listeners.map scrubListenerStatus }

theorem condEqIgnoringLTT_iff (a b : Condition) :
    condEqIgnoringLTT a b = true ↔ scrubCond a = scrubCond b := by
  rcases a with ⟨a1, a2, a3, a4, a5, a6⟩
  rcases b with ⟨b1, b2, b3, b4, b5, b6⟩
  simp [condEqIgnoringLTT, scrubCond, Bool.and_eq_true, beq_iff_eq, Condition.mk.injEq,
    and_assoc]

theorem condsEqIgnoringLTT_iff (as bs : List Condition) :
    condsEqIgnoringLTT as bs = true ↔ as.map scrubCond = bs.map scrubCond := by
  induction as generalizing bs with
  | nil => cases bs <;> simp [condsEqIgnoringLTT]
  | cons a as ih =>
    cases bs with
    | nil => simp [condsEqIgnoringLTT]
    | cons b bs =>
      simp [condsEqIgnoringLTT, Bool.and_eq_true, condEqIgnoringLTT_iff, ih]

theorem listenerStatusesEqIgnoringLTT_iff (as bs : List ListenerStatus) :
    listenerStatusesEqIgnoringLTT as bs = true ↔
      as.map scrubListenerStatus = bs.map scrubListenerStatus := by
  induction as generalizing bs with
  | nil => cases bs <;> simp [listenerStatusesEqIgnoringLTT]
  | cons a as ih =>
    cases bs with
    | nil => simp [listenerStatusesEqIgnoringLTT]
    | cons b bs =>
      rcases a with ⟨an, ak, ar, ac⟩
      rcases b with ⟨bn, bk, br, bc⟩
      simp [listenerStatusesEqIgnoringLTT, Bool.and_eq_true, beq_iff_eq,
        condsEqIgnoringLTT_iff, ih, scrubListenerStatus, ListenerStatus.mk.injEq,
        and_assoc]

theorem gatewayStatusEqIgnoringLTT_iff (a b : GatewayStatus) :
    gatewayStatusEqIgnoringLTT a b = true ↔ scrubStatus a = scrubStatus b := by
  rcases a with ⟨aa, ac, al⟩
  rcases b with ⟨ba, bc, bl⟩
  simp [gatewayStatusEqIgnoringLTT, Bool.and_eq_true, beq_iff_eq,
    condsEqIgnoringLTT_iff, listenerStatusesEqIgnoringLTT_iff, scrubStatus,
    GatewayStatus.mk.injEq, and_assoc]

theorem mergeScan_getElem? (u : Condition) (conds : List Condition) (i : Nat)
    (e : Condition) (he : conds[i]? = some e) :
    ∃ e2, (mergeScan u conds).1[i]? = some e2 ∧ e2.condType = e.condType ∧
      (e2 = e ∨ (e.condType = u.condType ∧ conditionChanged e u = true)) := by
  induction conds generalizing i with
  | nil => simp at he
  | cons c rest ih =>
    unfold mergeScan
    by_cases h : c.condType = u.condType
    · rw [if_pos h]
      cases i with
      | zero =>
        simp only [List.getElem?_cons_zero, Option.some.injEq] at he
        subst he
        by_cases hch : conditionChanged c u = true
        · refine ⟨{ c with
              status := u.status
              reason := u.reason
              message := u.message
              observedGeneration := u.observedGeneration
              lastTransitionTime := u.lastTransitionTime }, ?_, rfl, Or.inr ⟨h, hch⟩⟩
          simp [hch]
        · refine ⟨c, ?_, rfl, Or.inl rfl⟩
          simp [hch]
      | succ j =>
        simp only [List.getElem?_cons_succ] at he ⊢
        exact ⟨e, he, rfl, Or.inl rfl⟩
    · rw [if_neg h]
      cases i with
      | zero =>
        simp only [List.getElem?_cons_zero, Option.some.injEq] at he
        subst he
        exact ⟨c, by simp, rfl, Or.inl rfl⟩
      | succ j =>
        simp only [List.getElem?_cons_succ] at he ⊢
        exact ih j he

theorem mergeFold_invariant (existing : List Condition) (us : List Condition) :
    ∀ (acc : List Condition × List Condition) (us0 : List Condition),
      (∀ i (hi : i < existing.length),
        ∃ e, acc.1[i]? = some e ∧ e.condType = (existing.get ⟨i, hi⟩).condType ∧
          (e = existing.get ⟨i, hi⟩ ∨
            ∃ u ∈ us0, u.condType = (existing.get ⟨i, hi⟩).condType ∧
              conditionChanged (existing.get ⟨i, hi⟩) u = true)) →
      ∀ i (hi : i < existing.length),
        ∃ e, (us.foldl
            (fun (st : List Condition × List Condition) u =>
              let sr := mergeScan u st.1
              (sr.1, if sr.2 then st.2 else st.2 ++ [u])) acc).1[i]? = some e ∧
          e.condType = (existing.get ⟨i, hi⟩).condType ∧
          (e = existing.get ⟨i, hi⟩ ∨
            ∃ u ∈ us0 ++ us, u.condType = (existing.get ⟨i, hi⟩).condType ∧
              conditionChanged (existing.get ⟨i, hi⟩) u = true) := by
  induction us with
  | nil =>
    intro acc us0 hP i hi
    obtain ⟨e, h1, h2, h3⟩ := hP i hi
    exact ⟨e, h1, h2, by simpa using h3⟩
  | cons u us ih =>
    intro acc us0 hP i hi
    simp only [List.foldl_cons]
    have hstep : ∀ j (hj : j < existing.length),
        ∃ e, (mergeScan u acc.1).1[j]? = some e ∧
          e.condType = (existing.get ⟨j, hj⟩).condType ∧
          (e = existing.get ⟨j, hj⟩ ∨
            ∃ w ∈ us0 ++ [u], w.condType = (existing.get ⟨j, hj⟩).condType ∧
              conditionChanged (existing.get ⟨j, hj⟩) w = true) := by
      intro j hj
      obtain ⟨e, h1, h2, h3⟩ := hP j hj
      obtain ⟨e2, g1, g2, g3⟩ := mergeScan_getElem? u acc.1 j e h1
      refine ⟨e2, g1, g2.trans h2, ?_⟩
      rcases g3 with rfl | ⟨gt, gc⟩
      · rcases h3 with h3 | ⟨w, hw, hwt, hwc⟩
        · exact Or.inl h3
        · exact Or.inr ⟨w, List.mem_append_left _ hw, hwt, hwc⟩
      · rcases h3 with rfl | ⟨w, hw, hwt, hwc⟩
        · exact Or.inr ⟨u, List.mem_append_right _ (List.mem_singleton.mpr rfl),
            gt.symm, gc⟩
        · exact Or.inr ⟨w, List.mem_append_left _ hw, hwt, hwc⟩
    obtain ⟨e, h1, h2, h3⟩ := ih ((mergeScan u acc.1).1,
      if (mergeScan u acc.1).2 then acc.2 else acc.2 ++ [u]) (us0 ++ [u]) hstep i hi
    refine ⟨e, h1, h2, ?_⟩
    rcases h3 with h3 | ⟨w, hw, hwt, hwc⟩
    · exact Or.inl h3
    · refine Or.inr ⟨w, ?_, hwt, hwc⟩
      rw [List.append_assoc] at hw
      exact hw

theorem mergeScan_length (u : Condition) (conds : List Condition) :
    (mergeScan u conds).1.length = conds.length := by
  induction conds with
  | nil => rfl
  | cons c rest ih =>
    unfold mergeScan
    by_cases h : c.condType = u.condType
    · rw [if_pos h]
      simp
    · rw [if_neg h]
      simp [ih]

theorem mergeFold_length (us : List Condition) :
    ∀ acc : List Condition × List Condition,
      (us.foldl
        (fun (st : List Condition × List Condition) u =>
          let sr := mergeScan u st.1
          (sr.1, if sr.2 then st.2 else st.2 ++ [u])) acc).1.length = acc.1.length := by
  induction us with
  | nil => intro acc; rfl
  | cons u us ih =>
    intro acc
    simp only [List.foldl_cons]
    rw [ih]
    simp [mergeScan_length]

theorem mergeConditions_getElem? (existing updates : List Condition) (i : Nat)
    (hi : i < existing.length) :
    (mergeConditions existing updates)[i]? = some (existing.get ⟨i, hi⟩) ∨
    ∃ u ∈ updates, u.condType = (existing.get ⟨i, hi⟩).condType ∧
      conditionChanged (existing.get ⟨i, hi⟩) u = true := by
  have base : ∀ j (hj : j < existing.length),
      ∃ e, (existing, ([] : List Condition)).1[j]? = some e ∧
        e.condType = (existing.get ⟨j, hj⟩).condType ∧
        (e = existing.get ⟨j, hj⟩ ∨
          ∃ u ∈ ([] : List Condition), u.condType = (existing.get ⟨j, hj⟩).condType ∧
            conditionChanged (existing.get ⟨j, hj⟩) u = true) := by
    intro j hj
    refine ⟨existing.get ⟨j, hj⟩, ?_, rfl, Or.inl rfl⟩
    simp [List.getElem?_eq_getElem hj, List.get_eq_getElem]
  obtain ⟨e, h1, h2, h3⟩ := mergeFold_invariant existing updates (existing, []) [] base i hi
  have hlen := mergeFold_length updates (existing, ([] : List Condition))
  show ((updates.foldl
      (fun (st : List Condition × List Condition) u =>
        let sr := mergeScan u st.1
        (sr.1, if sr.2 then st.2 else st.2 ++ [u])) (existing, [])).1 ++
    (updates.foldl
      (fun (st : List Condition × List Condition) u =>
        let sr := mergeScan u st.1
        (sr.1, if sr.2 then st.2 else st.2 ++ [u])) (existing, [])).2)[i]? =
      some (existing.get ⟨i, hi⟩) ∨ _
  rw [List.getElem?_append_left (by rw [hlen]; exact hi)]
  rcases h3 with rfl | ⟨u, hu, hut, huc⟩
  · exact Or.inl h1
  · exact Or.inr ⟨u, hu, hut, huc⟩

/-- C9: the Gateway status update is a no-op iff the old and new status
are deep-equal with every condition's `LastTransitionTime` ignored; when
they differ the write carries exactly the new status (only the status
subresource); `conditionChanged` holds iff status, reason, message or
observed generation changed; and merging updates into existing
conditions leaves every existing entry untouched unless some update of
its type changed one of those four fields. -/
theorem updateStatus_noop_iff (old new : GatewayStatus)
    (existing updates : List Condition) (a b : Condition) :
    (updateStatus old new = none ↔ scrubStatus old = scrubStatus new) ∧
    (∀ upd, updateStatus old new = some upd → upd = new) ∧
    (conditionChanged a b = true ↔
      (a.status ≠ b.status ∨ a.reason ≠ b.reason ∨ a.message ≠ b.message ∨
        a.observedGeneration ≠ b.observedGeneration)) ∧
    (∀ i (hi : i < existing.length),
      (mergeConditions existing updates)[i]? = some (existing.get ⟨i, hi⟩) ∨
      ∃ u ∈ updates, u.condType = (existing.get ⟨i, hi⟩).condType ∧
        conditionChanged (existing.get ⟨i, hi⟩) u = true) := by
  refine ⟨?_, ?_, ?_, ?_⟩
  · unfold updateStatus
    by_cases h : gatewayStatusEqIgnoringLTT old new = true
    · rw [if_pos h]
      exact iff_of_true rfl ((gatewayStatusEqIgnoringLTT_iff old new).mp h)
    · rw [if_neg h]
      exact iff_of_false (by simp)
        (fun hc => h ((gatewayStatusEqIgnoringLTT_iff old new).mpr hc))
  · intro upd hupd
    unfold updateStatus at hupd
    by_cases h : gatewayStatusEqIgnoringLTT old new = true
    · rw [if_pos h] at hupd
      cases hupd
    · rw [if_neg h] at hupd
      exact (Option.some.inj hupd).symm
  · unfold conditionChanged
    simp only [Bool.or_eq_true, bne_iff_ne]
    tauto
  · intro i hi
    exact mergeConditions_getElem? existing updates i hi

/-- Witness for C9: two statuses differing only in a transition time
produce no write, and merging an update with an equal payload leaves the
existing condition in place. -/
theorem updateStatus_noop_iff_witness :
    updateStatus ⟨[], [⟨gs "Accepted", gs "True", gs "Accepted", gs "ok", 1, 5⟩], []⟩
      ⟨[], [⟨gs "Accepted", gs "True", gs "Accepted", gs "ok", 1, 9⟩], []⟩ = none ∧
    conditionChanged ⟨gs "Accepted", gs "True", gs "Accepted", gs "ok", 1, 5⟩
      ⟨gs "Accepted", gs "False", gs "Invalid", gs "bad", 1, 5⟩ = true ∧
    ((mergeConditions [⟨gs "Accepted", gs "True", gs "Accepted", gs "ok", 1, 5⟩]
        [⟨gs "Accepted", gs "True", gs "Accepted", gs "ok", 1, 9⟩])[0]? =
      some (([⟨gs "Accepted", gs "True", gs "Accepted", gs "ok", 1, 5⟩] :
        List Condition).get ⟨0, by decide⟩) ∨
      ∃ u ∈ [(⟨gs "Accepted", gs "True", gs "Accepted", gs "ok", 1, 9⟩ : Condition)],
        u.condType = (([⟨gs "Accepted", gs "True", gs "Accepted", gs "ok", 1, 5⟩] :
          List Condition).get ⟨0, by decide⟩).condType ∧
        conditionChanged (([⟨gs "Accepted", gs "True", gs "Accepted", gs "ok", 1, 5⟩] :
          List Condition).get ⟨0, by decide⟩) u = true) := by
  have t := updateStatus_noop_iff
    ⟨[], [⟨gs "Accepted", gs "True", gs "Accepted", gs "ok", 1, 5⟩], []⟩
    ⟨[], [⟨gs "Accepted", gs "True", gs "Accepted", gs "ok", 1, 9⟩], []⟩
    [⟨gs "Accepted", gs "True", gs "Accepted", gs "ok", 1, 5⟩]
    [⟨gs "Accepted", gs "True", gs "Accepted", gs "ok", 1, 9⟩]
    ⟨gs "Accepted", gs "True", gs "Accepted", gs "ok", 1, 5⟩
    ⟨gs "Accepted", gs "False", gs "Invalid", gs "bad", 1, 5⟩
  exact ⟨t.1.mpr (by decide), t.2.2.1.mpr (Or.inl (by decide)),
    t.2.2.2 0 (by decide)⟩

end CaddyGateway
